import Mathlib

/-!
Verification development for the 2-D particle-physics kernel
(`src/physics/mod.rs`, `src/physics/object.rs`, `src/physics/constraints.rs`,
`src/for_pairs.rs`, and the earlier monolithic iteration `src/main.rs`).

Modelling conventions.

* Machine floats (`f32` in the `physics` module, `f64` in `main.rs`) are
  embedded as exact rationals `ℚ`; rounding is ignored, which realises the
  spec's "within floating-point reassociation tolerance" as exact equality.
* The hardware square root has no exact rational counterpart, so every
  definition that calls `.sqrt()` takes an abstract function `sq : ℚ → ℚ`
  as a parameter; theorems hold for every `sq`, or assume the algebraic
  property of `sq` they need.
* Claims about NaN/infinity behaviour use a separate special-value model
  `FloatV` (a rational tagged with `nan` / `±∞`) with IEEE-754 propagation
  rules for the operations the kernel performs (the model carries no
  negative zero; none of the analysed code paths distinguishes it).
* Vectors (`glam`'s `Vec2`/`DVec2`) are a two-field structure `V2`.
* Parallel iteration (`rayon`) is modelled sequentially: every parallel
  region of the kernel is a pure map over a snapshot, so its result does
  not depend on scheduling.
-/

/-- Two-dimensional vector over exact rationals, modelling `glam::Vec2` /
`glam::DVec2` (componentwise arithmetic). -/
structure V2 where
  x : ℚ
  y : ℚ
deriving DecidableEq, Repr

namespace V2

def zero : V2 := ⟨0, 0⟩

def add (a b : V2) : V2 := ⟨a.x + b.x, a.y + b.y⟩

def sub (a b : V2) : V2 := ⟨a.x - b.x, a.y - b.y⟩

def neg (a : V2) : V2 := ⟨-a.x, -a.y⟩

def smul (c : ℚ) (a : V2) : V2 := ⟨c * a.x, c * a.y⟩

/-- `Vec2::length_squared`. -/
def lengthSq (a : V2) : ℚ := a.x * a.x + a.y * a.y

/-- `Vec2::distance_squared`. -/
def distSq (a b : V2) : ℚ := lengthSq (sub a b)

/-- Right multiplication by a scalar, `Vec2 * f32`. -/
def mulQ (a : V2) (c : ℚ) : V2 := ⟨a.x * c, a.y * c⟩

/-- Division by a scalar, `Vec2 / f32`. -/
def divQ (a : V2) (c : ℚ) : V2 := ⟨a.x / c, a.y / c⟩

/-- Componentwise `Vec2::clamp`. -/
def clamp (v lo hi : V2) : V2 :=
  ⟨max lo.x (min v.x hi.x), max lo.y (min v.y hi.y)⟩

/-- `Vec2::splat`. -/
def splat (c : ℚ) : V2 := ⟨c, c⟩

instance : Add V2 := ⟨add⟩
instance : Sub V2 := ⟨sub⟩
instance : Neg V2 := ⟨neg⟩

theorem add_def (a b : V2) : a + b = ⟨a.x + b.x, a.y + b.y⟩ := rfl

theorem sub_def (a b : V2) : a - b = ⟨a.x - b.x, a.y - b.y⟩ := rfl

theorem lengthSq_nonneg (a : V2) : 0 ≤ a.lengthSq := by
  have hx : 0 ≤ a.x * a.x := mul_self_nonneg _
  have hy : 0 ≤ a.y * a.y := mul_self_nonneg _
  simpa [lengthSq] using add_nonneg hx hy

theorem lengthSq_eq_zero_iff (a : V2) : a.lengthSq = 0 ↔ a = zero := by
  have hx : 0 ≤ a.x * a.x := mul_self_nonneg _
  have hy : 0 ≤ a.y * a.y := mul_self_nonneg _
  constructor
  · intro h
    have h' := (add_eq_zero_iff_of_nonneg hx hy).mp (by simpa [lengthSq] using h)
    have hx' : a.x = 0 := mul_self_eq_zero.mp h'.1
    have hy' : a.y = 0 := mul_self_eq_zero.mp h'.2
    cases a
    simp_all [zero]
  · intro h; subst h; simp [lengthSq, zero]

end V2

/-- Particle state, from `PhysObject` in `src/physics/object.rs`
(`pos`, `pos_old`, `acceleration`, `radius`, `mass`). -/
structure PhysObject where
  pos : V2
  pos_old : V2
  acceleration : V2
  radius : ℚ
  mass : ℚ
deriving DecidableEq, Repr

instance : Inhabited PhysObject :=
  ⟨{ pos := V2.zero, pos_old := V2.zero, acceleration := V2.zero,
     radius := 0, mass := 0 }⟩

namespace PhysObject

/-- `PhysObject::accelerate`: accumulate into the acceleration field. -/
def accelerate (o : PhysObject) (acc : V2) : PhysObject :=
  { o with acceleration := o.acceleration + acc }

/-- Modelled from the spec: `PhysObject::set_velocity` is called from
`physics_system` in `src/physics/mod.rs` but its definition is not among
the sources here; per §4.1 (and matching the vectorized
`ObjectsChunkMut::set_velocity`, which is in the sources) it writes
`pos_old = pos - w`, where the caller passes `w = v * dt`. -/
def set_velocity (o : PhysObject) (w : V2) : PhysObject :=
  { o with pos_old := o.pos - w }

/-- `PhysObject::update_position` (Verlet step), real-valued model: in the
exact-rational embedding every value is finite, so the non-finite recovery
branch of the source is never taken and is omitted here (the special-value
behaviour is verified separately on the `FloatV` model). -/
def update_position (o : PhysObject) (dt : ℚ) : PhysObject :=
  let velocity := o.pos - o.pos_old
  { o with
    pos_old := o.pos
    pos := o.pos + (velocity + (o.acceleration.mulQ dt).mulQ dt)
    acceleration := V2.zero }

/-- `PhysObject::has_changed`. -/
def has_changed (o : PhysObject) : Bool := decide (o.pos ≠ o.pos_old)

end PhysObject

/-- `f32::EPSILON` as an exact rational (2⁻²³). -/
def f32Eps : ℚ := 1 / 2 ^ 23

/-- Gravity setting of the `physics` module iteration
(`Gravity` in `src/physics/mod.rs`): `Dir`, `VectorField` (externally
compiled scalar function pair, possibly absent) and `None`.  The compiled
`CFunc<2>` field functions are embedded as opaque rational functions; the
`x`/`y` source strings only feed the UI and are dropped here. -/
inductive Gravity where
  | dir (d : V2)
  | vectorField (funcs : Option ((ℚ → ℚ → ℚ) × (ℚ → ℚ → ℚ)))
  | none

namespace Gravity

/-- `Gravity::acceleration` from `src/physics/mod.rs`: constant direction,
user field pair evaluated at `(x, y)` (zero when no compiled pair), zero for
`None` (the N-body per-object term is applied at a later stage). -/
def acceleration (g : Gravity) (pos : V2) : V2 :=
  match g with
  | dir d => d
  | Gravity.none => V2.zero
  | vectorField funcs =>
    match funcs with
    | some fs => ⟨fs.1 pos.x pos.y, fs.2 pos.x pos.y⟩
    | Option.none => V2.zero

/-- `Gravity::as_str` from `src/physics/mod.rs`. -/
def as_str (g : Gravity) : String :=
  match g with
  | dir _ => "Dir"
  | Gravity.none => "None"
  | vectorField _ => "Vector Field"

/-- Discriminates the `None` variant (`matches!(…, Gravity::None)`). -/
def isNone (g : Gravity) : Bool :=
  match g with
  | Gravity.none => true
  | _ => false

/-- `Gravity::from_str` from `src/physics/mod.rs`. -/
def from_str (s : String) (gravity : Gravity) : Gravity :=
  if s = "Dir" then
    match gravity with
    | dir _ => gravity
    | _ => dir ⟨0, -400⟩
  else if s = "None" then Gravity.none
  else if s = "Vector Field" then
    match gravity with
    | vectorField _ => gravity
    | _ => vectorField Option.none
  else gravity

end Gravity

/-- Bounds setting (`Bounds` in `src/physics/mod.rs`). -/
inductive Bounds where
  | circle (r : ℚ)
  | rect (min max : V2)
  | none
deriving Repr

namespace Bounds

/-- Discriminates the `None` variant (`matches!(…, Bounds::None)`). -/
def isNone (b : Bounds) : Bool :=
  match b with
  | Bounds.none => true
  | _ => false

/-- `Bounds::update_position` from `src/physics/mod.rs`: circle bounds
project an escaping particle back onto the circle of radius `r - radius`
along the direction from the origin; rect bounds clamp componentwise;
`sq` stands for the hardware square root used by `Vec2::length`. -/
def update_position (b : Bounds) (sq : ℚ → ℚ) (obj : PhysObject) : PhysObject :=
  match b with
  | circle r =>
    let l := sq obj.pos.lengthSq
    if l > r - obj.radius then
      { obj with pos := (obj.pos.divQ l).mulQ (r - obj.radius) }
    else obj
  | rect lo hi =>
    let rv := V2.splat obj.radius
    { obj with pos := obj.pos.clamp (lo + rv) (hi - rv) }
  | Bounds.none => obj

end Bounds

/-- Simulation settings (`PhysSettings` in `src/physics/mod.rs`);
`sub_steps` is kept as a bare `ℕ` (the source type `NonZeroU32` guarantees
positivity, which theorems assume explicitly where needed). -/
structure PhysSettings where
  gravity : Gravity
  gravity_set_velocity : Bool
  bounds : Bounds
  gravitational_constant : ℚ
  sub_steps : ℕ
  collisions : Bool
  use_simd : Bool

/-- Sum of a list of vectors, modelling `Iterator::reduce(|a, b| a + b)`
followed by `unwrap_or_default()` (folding from `zero` instead of the first
element is value-equal because `zero` is the additive identity). -/
def sumV2 (l : List V2) : V2 := l.foldl (· + ·) V2.zero

/-- One term of the scalar N-body sum (`physics_system`,
`src/physics/mod.rs`): `axis * (mass_b * G / sqr_len / sqrt(sqr_len))`
with `axis = pos_b - pos_a`, and exactly zero when `sqr_len == 0`
(self-interaction and exact coincidence). -/
def nbodyPairTerm (G : ℚ) (sq : ℚ → ℚ) (a b : PhysObject) : V2 :=
  let axis := b.pos - a.pos
  let sqr_len := axis.lengthSq
  if sqr_len = 0 then V2.zero
  else axis.mulQ (b.mass * G / sqr_len / sq sqr_len)

/-- Per-particle N-body acceleration (scalar path of `physics_system`):
sum of the pair terms over every particle `b` of the snapshot. -/
def nbodyAccel (G : ℚ) (sq : ℚ → ℚ) (objects : List PhysObject)
    (a : PhysObject) : V2 :=
  sumV2 (objects.map (fun b => nbodyPairTerm G sq a b))

/-- Distance constraint between two particles, `LinkConstraint` in
`src/physics/constraints.rs` (endpoints already resolved to dense indices). -/
structure LinkConstraint where
  a : ℕ
  b : ℕ
  dist : ℚ
  snap : ℚ
deriving DecidableEq, Repr

namespace LinkConstraint

/-- `LinkConstraint::should_stay`: keep the link while the squared distance
between its endpoints is strictly below `snap * snap`. -/
def should_stay (l : LinkConstraint) (get : ℕ → V2) : Bool :=
  decide (V2.distSq (get l.a) (get l.b) < l.snap * l.snap)

/-- `LinkConstraint::apply`: epsilon-substitute an exactly zero axis, then
redistribute position by inverse-mass weighting (two sequential indexed
writes, as in the source). -/
def apply (sq : ℚ → ℚ) (l : LinkConstraint) (objs : List PhysObject) :
    List PhysObject :=
  let axis0 := (objs[l.a]!).pos - (objs[l.b]!).pos
  let axis := if axis0 = V2.zero then ⟨f32Eps, f32Eps⟩ else axis0
  let dist := sq axis.lengthSq
  let n := axis.divQ dist
  let delta := l.dist - dist
  let a_m := (objs[l.a]!).mass
  let b_m := (objs[l.b]!).mass
  let objs1 := objs.set l.a
    (let p := objs[l.a]!
     { p with pos := p.pos + n.mulQ (delta * b_m / (a_m + b_m)) })
  objs1.set l.b
    (let p := objs1[l.b]!
     { p with pos := p.pos - n.mulQ (delta * a_m / (a_m + b_m)) })

end LinkConstraint

/-- Anchor constraint, `PointConstraint` in `src/physics/constraints.rs`. -/
structure PointConstraint where
  a : ℕ
  dist : ℚ
  point : V2
deriving DecidableEq, Repr

namespace PointConstraint

/-- `PointConstraint::apply`: place the particle at distance `dist` from the
anchor along the current axis, resetting `pos_old` and zeroing the
acceleration.  Note the source performs no zero-axis substitution here. -/
def apply (sq : ℚ → ℚ) (pc : PointConstraint) (objs : List PhysObject) :
    List PhysObject :=
  let axis := (objs[pc.a]!).pos - pc.point
  let dist := sq axis.lengthSq
  let n := axis.divQ dist
  let delta := pc.dist - dist
  let p := pc.point + n.mulQ delta
  objs.set pc.a
    { objs[pc.a]! with pos := p, pos_old := p, acceleration := V2.zero }

/-- `PointConstraint::should_stay` is constantly `true` (a point constraint
never breaks by distance). -/
def should_stay (_ : PointConstraint) (_ : ℕ → V2) : Bool := true

end PointConstraint

/-- Link whose endpoints are still unresolved entity references; `Option ℕ`
stands for the result of looking the entity up in the extraction map
(`entities.get(e).cloned()` in `physics_system`). -/
structure LinkRaw where
  a : Option ℕ
  b : Option ℕ
  dist : ℚ
  snap : ℚ

/-- `LinkConstraint::try_map` over the lookup results: both endpoints must
resolve. -/
def resolveLink (r : LinkRaw) : Option LinkConstraint :=
  r.a.bind (fun a => r.b.map (fun b =>
    { a := a, b := b, dist := r.dist, snap := r.snap }))

/-- One step of the link-validation filter in `physics_system`
(`src/physics/mod.rs`, scalar path): a link is kept for the substep loop
iff it resolves and `should_stay` holds on the extracted positions;
otherwise its entity is despawned (reported for discard). -/
def keepLink (objs : List PhysObject) (r : LinkRaw) : Option LinkConstraint :=
  match resolveLink r with
  | some link =>
    if link.should_stay (fun i => (objs[i]!).pos) then some link else Option.none
  | Option.none => Option.none

/-- The validated link list for a step (`links.iter().filter_map(…)`). -/
def validLinks (objs : List PhysObject) (raw : List LinkRaw) :
    List LinkConstraint :=
  raw.filterMap (keepLink objs)

/-- The map phase of `par_for_pairs` (`src/for_pairs.rs`): row `i` holds, for
each `j > i` with `map` returning `Some`, the indexed pair of produced
values `((i, a), (i + 1 + j', b))`. -/
def pairResults {E T : Type} [Inhabited E] (xs : List E)
    (map : E → E → Option (T × T)) : List (List ((ℕ × T) × (ℕ × T))) :=
  xs.enum.map (fun io =>
    ((xs.drop (io.1 + 1)).enum.filterMap (fun jo =>
      (map io.2 jo.2).map (fun ab => ((io.1, ab.1), (io.1 + 1 + jo.1, ab.2))))))

/-- `par_for_pairs` (`src/for_pairs.rs`): evaluate `map` on every unordered
pair (map phase over an immutable snapshot), then apply all produced values
sequentially, first to the pair's lower index, then to its higher index. -/
def parForPairs {E T : Type} [Inhabited E] (xs : List E)
    (map : E → E → Option (T × T)) (apply : E → T → E) : List E :=
  let v := pairResults xs map
  v.flatten.foldl (fun st p =>
    let st1 := st.set p.1.1 (apply (st[p.1.1]!) p.1.2)
    st1.set p.2.1 (apply (st1[p.2.1]!) p.2.2)) xs

/-- The collision test-and-respond closure passed to `par_for_pairs` by the
scalar path of `physics_system`: epsilon-substitute a zero axis, detect
overlap by squared distance, and produce the symmetric mass-weighted
positional corrections. -/
def collide (sq : ℚ → ℚ) (a b : PhysObject) : Option (V2 × V2) :=
  let collision_axis0 := a.pos - b.pos
  let collision_axis :=
    if collision_axis0 = V2.zero then (⟨f32Eps, f32Eps⟩ : V2)
    else collision_axis0
  let combined := a.radius + b.radius
  let dist_sqr := collision_axis.lengthSq
  if dist_sqr < combined * combined then
    let dist := sq dist_sqr
    let n := collision_axis.divQ dist
    let delta := combined - dist
    some (V2.smul (b.mass / (a.mass + b.mass) * delta) n,
          V2.smul (-(a.mass / (a.mass + b.mass) * delta)) n)
  else Option.none

/-- Gravity phase of one scalar substep (`physics_system`,
`src/physics/mod.rs`): the N-body term runs when
`|gravitational_constant| > f32::EPSILON` against a snapshot of all
particles, then the configured field term runs when the gravity mode is not
`None`; each term feeds `set_velocity (v * dt)` or `accelerate v` according
to `gravity_set_velocity`. -/
def gravityPhase (sq : ℚ → ℚ) (s : PhysSettings) (dt : ℚ)
    (objs : List PhysObject) : List PhysObject :=
  let objs1 :=
    if |s.gravitational_constant| > f32Eps then
      let snapshot := objs
      objs.map (fun a =>
        let v := nbodyAccel s.gravitational_constant sq snapshot a
        if s.gravity_set_velocity then a.set_velocity (v.mulQ dt)
        else a.accelerate v)
    else objs
  if s.gravity.isNone then objs1
  else
    objs1.map (fun o =>
      let v := s.gravity.acceleration o.pos
      if s.gravity_set_velocity then o.set_velocity (v.mulQ dt)
      else o.accelerate v)

/-- Bounds phase of one scalar substep: skipped entirely for `Bounds::None`. -/
def boundsPhase (sq : ℚ → ℚ) (s : PhysSettings) (objs : List PhysObject) :
    List PhysObject :=
  if s.bounds.isNone then objs
  else objs.map (fun o => s.bounds.update_position sq o)

/-- Constraint phase of one scalar substep: apply every validated link, then
every validated point constraint, sequentially. -/
def constraintsPhase (sq : ℚ → ℚ) (links : List LinkConstraint)
    (points : List PointConstraint) (objs : List PhysObject) :
    List PhysObject :=
  let objs1 := links.foldl (fun st l => l.apply sq st) objs
  points.foldl (fun st p => p.apply sq st) objs1

/-- Collision phase of one scalar substep: brute-force all-pairs resolution
through `par_for_pairs`, gated by the `collisions` setting. -/
def collisionPhase (sq : ℚ → ℚ) (s : PhysSettings) (objs : List PhysObject) :
    List PhysObject :=
  if s.collisions then
    parForPairs objs (collide sq) (fun o t => { o with pos := o.pos + t })
  else objs

/-- Integration phase of one scalar substep. -/
def updatePhase (dt : ℚ) (objs : List PhysObject) : List PhysObject :=
  objs.map (fun o => o.update_position dt)

/-- One substep of the scalar path of `physics_system`
(gravity → bounds → constraints → collisions → integrate). -/
def substep (sq : ℚ → ℚ) (s : PhysSettings) (links : List LinkConstraint)
    (points : List PointConstraint) (dt : ℚ) (objs : List PhysObject) :
    List PhysObject :=
  updatePhase dt
    (collisionPhase sq s
      (constraintsPhase sq links points
        (boundsPhase sq s
          (gravityPhase sq s dt objs))))

/-- Structure-of-arrays particle storage of the vectorized path
(`PhysObjects` in `physics_system`): `count` live particles followed by
`NUM_ELEMS - 1 = 3` padding slots (the eight parallel `f32` arrays are
folded into one array of particle records, which indexes in lockstep
exactly as the source arrays do); `arr` is the storage indexed 0,…,count+2. -/
structure SimdState where
  count : ℕ
  arr : ℕ → PhysObject

/-- Pointwise update of the storage function (an indexed array write). -/
def updF (f : ℕ → PhysObject) (i : ℕ) (v : PhysObject) : ℕ → PhysObject :=
  fun m => if m = i then v else f m

/-- `PhysObjects::wrap_back`: sequentially copy the first
`len - count = 3` entries into the padding region
(`v[count + k] = v[k]` for `k = 0, 1, 2`, in order, so for small `count`
later copies read already-wrapped slots). -/
def wrapBack (st : SimdState) : SimdState :=
  let a1 := updF st.arr st.count (st.arr 0)
  let a2 := updF a1 (st.count + 1) (a1 1)
  let a3 := updF a2 (st.count + 2) (a2 2)
  { st with arr := a3 }

/-- Indices covered by the taken chunks of width `NUM_ELEMS = 4`
(`take((count + num - 1) / num)` over arrays of length `count + 3`;
every taken chunk is full). -/
def simdLanes (count : ℕ) : ℕ := 4 * ((count + 3) / 4)

/-- One lane of the vectorized N-body inner loop: `axis = obj - x`,
`sqr_len = axis·axis`, greater-than-zero mask, `len³ = √sqr_len · sqr_len`,
`c = G · mass/len³` masked to zero on a zero axis, result `axis · c`. -/
def simdNBodyTerm (G : ℚ) (sq : ℚ → ℚ) (b : PhysObject) (pos : V2) : V2 :=
  let axis := b.pos - pos
  let sqr_len := axis.lengthSq
  if sqr_len > 0 then
    let len := sq sqr_len
    let len3 := len * sqr_len
    axis.mulQ (G * (b.mass / len3))
  else V2.zero

/-- The vectorized N-body gravity pass (`dynamic` scope of the `use_simd`
branch): wrap the padding, snapshot positions/masses (`objs_clone`, whose
entry `i` holds lanes `i,…,i+3` of the padded arrays), then for every lane
`p` of the taken chunks accumulate the masked inverse-square terms over the
`count` snapshot entries; lane `p` of chunk entry `i` reads padded slot
`i + p % 4`. -/
def simdNBody (G : ℚ) (sq : ℚ → ℚ) (st : SimdState) : SimdState :=
  let stw := wrapBack st
  let clone := stw.arr
  { stw with arr := fun p =>
      if p < simdLanes st.count then
        let o := stw.arr p
        { o with acceleration := o.acceleration +
            sumV2 ((List.range st.count).map (fun i =>
              simdNBodyTerm G sq (clone (i + p % 4)) o.pos)) }
      else stw.arr p }

/-- The vectorized field-gravity pass (`const` scope of the `use_simd`
branch): per lane of the taken chunks, evaluate the configured mode at the
lane's position and feed `set_velocity (v * dt)` or `accelerate v`
(`ObjectsChunkMut::set_velocity` writes `old = pos - vel`). -/
def simdFieldGravity (s : PhysSettings) (dt : ℚ) (st : SimdState) :
    SimdState :=
  if s.gravity.isNone then st
  else
    { st with arr := fun p =>
        if p < simdLanes st.count then
          let o := st.arr p
          let v := s.gravity.acceleration o.pos
          if s.gravity_set_velocity then o.set_velocity (v.mulQ dt)
          else o.accelerate v
        else st.arr p }

/-- The vectorized integration pass (`update` scope of the `use_simd`
branch): per lane, `new = pos + ((pos - old) + acc·dt²)`, store the previous
position, zero the acceleration.  There is no non-finite recovery on this
path. -/
def simdIntegrate (dt : ℚ) (st : SimdState) : SimdState :=
  { st with arr := fun p =>
      if p < simdLanes st.count then
        let o := st.arr p
        let v := o.pos - o.pos_old
        let a := o.acceleration.mulQ (dt * dt)
        { o with pos := o.pos + (v + a), pos_old := o.pos,
                 acceleration := V2.zero }
      else st.arr p }

/-- One substep of the vectorized (`use_simd`) path of `physics_system`:
N-body gravity (when `|G| > f32::EPSILON`), field gravity (when the mode is
not `None`), then integration.  Boundary confinement, constraint
satisfaction and collision resolution do not appear in this loop. -/
def simdSubstep (sq : ℚ → ℚ) (s : PhysSettings) (dt : ℚ) (st : SimdState) :
    SimdState :=
  let st1 :=
    if |s.gravitational_constant| > f32Eps then
      simdNBody s.gravitational_constant sq st
    else st
  let st2 := simdFieldGravity s dt st1
  simdIntegrate dt st2

/-- The live particles of a vectorized state, as the scalar path's list. -/
def stList (st : SimdState) : List PhysObject :=
  (List.range st.count).map st.arr

namespace MainSim

/-- Gravity setting of the monolithic iteration (`Gravity` in
`src/main.rs`, `f64`-valued): it additionally admits the
`Towards { point, strength }` mode. -/
inductive Gravity where
  | dir (d : V2)
  | towards (point : V2) (strength : ℚ)
  | vectorField (funcs : Option ((ℚ → ℚ → ℚ) × (ℚ → ℚ → ℚ)))
  | none

/-- The `towards` helper inside `Gravity::acceleration` (`src/main.rs`):
`axis = point - pos`, `axis * (strength / (sqr_len * len))` with
`len = sqrt(sqr_len)`. -/
def towardsAccel (sq : ℚ → ℚ) (point : V2) (strength : ℚ) (pos : V2) : V2 :=
  let axis := point - pos
  let sqr_len := axis.lengthSq
  let len := sq sqr_len
  axis.mulQ (strength / (sqr_len * len))

/-- `Gravity::acceleration` from `src/main.rs`. -/
def Gravity.acceleration (sq : ℚ → ℚ) (g : Gravity) (pos : V2) : V2 :=
  match g with
  | Gravity.dir d => d
  | Gravity.towards point strength => towardsAccel sq point strength pos
  | Gravity.none => V2.zero
  | Gravity.vectorField funcs =>
    match funcs with
    | some fs => ⟨fs.1 pos.x pos.y, fs.2 pos.x pos.y⟩
    | Option.none => V2.zero

/-- `Gravity::as_str` from `src/main.rs`. -/
def Gravity.as_str (g : Gravity) : String :=
  match g with
  | Gravity.dir _ => "Dir"
  | Gravity.towards _ _ => "Towards"
  | Gravity.none => "None"
  | Gravity.vectorField _ => "Vector Field"

/-- The spec's formula for the point-source gravity mode, written as the
spec states it: `axis · strength / (|axis|² · |axis|)`, with `axis` the
vector from the particle to the point and `|axis|` the (hardware) length
`sq (axis·axis)`. -/
def specPointSource (sq : ℚ → ℚ) (point : V2) (strength : ℚ) (pos : V2) : V2 :=
  let axis := point - pos
  let len := sq axis.lengthSq
  (axis.mulQ strength).divQ (len * len * len)

end MainSim

/-- Special-value float model: an exact rational, or one of the IEEE-754
special values.  Rounding and overflow are ignored; negative zero is not
carried (no analysed code path distinguishes it). -/
inductive FloatV where
  | fin (q : ℚ)
  | pinf
  | ninf
  | nan
deriving DecidableEq, Repr

namespace FloatV

/-- `f32::is_nan` / `f64::is_nan`. -/
def is_nan : FloatV → Bool
  | nan => true
  | _ => false

/-- `f32::is_finite` / `f64::is_finite`. -/
def is_finite : FloatV → Bool
  | fin _ => true
  | _ => false

/-- IEEE-754 equality (`==`): NaN compares unequal to everything. -/
def feq : FloatV → FloatV → Bool
  | fin a, fin b => decide (a = b)
  | pinf, pinf => true
  | ninf, ninf => true
  | _, _ => false

/-- IEEE-754 less-than: any comparison involving NaN is false. -/
def flt : FloatV → FloatV → Bool
  | fin a, fin b => decide (a < b)
  | fin _, pinf => true
  | ninf, fin _ => true
  | ninf, pinf => true
  | _, _ => false

def fneg : FloatV → FloatV
  | fin q => fin (-q)
  | pinf => ninf
  | ninf => pinf
  | nan => nan

/-- IEEE-754 addition on exact values: `∞ + (-∞) = NaN`, infinities absorb
finite values, NaN propagates. -/
def fadd : FloatV → FloatV → FloatV
  | nan, _ => nan
  | _, nan => nan
  | pinf, ninf => nan
  | ninf, pinf => nan
  | pinf, _ => pinf
  | _, pinf => pinf
  | ninf, _ => ninf
  | _, ninf => ninf
  | fin a, fin b => fin (a + b)

/-- IEEE-754 subtraction, `a - b = a + (-b)`. -/
def fsub (a b : FloatV) : FloatV := fadd a (fneg b)

/-- IEEE-754 multiplication: `0 · ∞ = NaN`, NaN propagates, signs of
infinities follow the sign rule. -/
def fmul : FloatV → FloatV → FloatV
  | nan, _ => nan
  | _, nan => nan
  | fin a, fin b => fin (a * b)
  | pinf, pinf => pinf
  | pinf, ninf => ninf
  | ninf, pinf => ninf
  | ninf, ninf => pinf
  | pinf, fin b => if 0 < b then pinf else if b < 0 then ninf else nan
  | fin a, pinf => if 0 < a then pinf else if a < 0 then ninf else nan
  | ninf, fin b => if 0 < b then ninf else if b < 0 then pinf else nan
  | fin a, ninf => if 0 < a then ninf else if a < 0 then pinf else nan

/-- IEEE-754 division: `0/0 = NaN`, `x/0 = ±∞` for `x ≠ 0`, `x/∞ = 0`,
`∞/∞ = NaN`, NaN propagates (the model's single zero is treated as `+0`). -/
def fdiv : FloatV → FloatV → FloatV
  | nan, _ => nan
  | _, nan => nan
  | fin a, fin b =>
    if b = 0 then (if a = 0 then nan else if 0 < a then pinf else ninf)
    else fin (a / b)
  | fin _, pinf => fin 0
  | fin _, ninf => fin 0
  | pinf, fin b => if 0 ≤ b then pinf else ninf
  | ninf, fin b => if 0 ≤ b then ninf else pinf
  | pinf, pinf => nan
  | pinf, ninf => nan
  | ninf, pinf => nan
  | ninf, ninf => nan

/-- IEEE-754 square root: NaN on negative arguments, exactly `0` at `0`,
`∞` at `∞`; on positive finite arguments the hardware result is abstracted
by the parameter `qs`. -/
def fsqrt (qs : ℚ → ℚ) : FloatV → FloatV
  | fin q => if q < 0 then nan else if q = 0 then fin 0 else fin (qs q)
  | pinf => pinf
  | ninf => nan
  | nan => nan

end FloatV

/-- Two-dimensional vector of special-value floats. -/
structure FV2 where
  x : FloatV
  y : FloatV
deriving DecidableEq, Repr

namespace FV2

def zero : FV2 := ⟨FloatV.fin 0, FloatV.fin 0⟩

def add (a b : FV2) : FV2 := ⟨FloatV.fadd a.x b.x, FloatV.fadd a.y b.y⟩

def sub (a b : FV2) : FV2 := ⟨FloatV.fsub a.x b.x, FloatV.fsub a.y b.y⟩

/-- `Vec2 * f` (componentwise multiplication by a scalar on the right). -/
def mulF (a : FV2) (c : FloatV) : FV2 :=
  ⟨FloatV.fmul a.x c, FloatV.fmul a.y c⟩

/-- `Vec2 / f`. -/
def divF (a : FV2) (c : FloatV) : FV2 :=
  ⟨FloatV.fdiv a.x c, FloatV.fdiv a.y c⟩

/-- `f * Vec2` (scalar on the left). -/
def smulF (c : FloatV) (a : FV2) : FV2 :=
  ⟨FloatV.fmul c a.x, FloatV.fmul c a.y⟩

/-- `Vec2::length_squared`. -/
def lengthSqF (a : FV2) : FloatV :=
  FloatV.fadd (FloatV.fmul a.x a.x) (FloatV.fmul a.y a.y)

/-- `Vec2::is_finite`: both components finite. -/
def is_finite (a : FV2) : Bool := a.x.is_finite && a.y.is_finite

/-- `Vec2::is_nan`: some component NaN. -/
def is_nan (a : FV2) : Bool := a.x.is_nan || a.y.is_nan

/-- IEEE `==` on vectors (componentwise conjunction, as `PartialEq` on
`glam` vectors). -/
def feq (a b : FV2) : Bool := FloatV.feq a.x b.x && FloatV.feq a.y b.y

/-- Lift an exact vector into the special-value model. -/
def ofV2 (v : V2) : FV2 := ⟨FloatV.fin v.x, FloatV.fin v.y⟩

end FV2

/-- Particle state over special-value floats (for the NaN/∞ claims). -/
structure FPhysObject where
  pos : FV2
  pos_old : FV2
  acceleration : FV2
  radius : FloatV
  mass : FloatV
deriving DecidableEq, Repr

namespace FPhysObject

/-- `PhysObject::has_changed` (`pos != pos_old`, IEEE inequality). -/
def has_changed (o : FPhysObject) : Bool := !(FV2.feq o.pos o.pos_old)

/-- `PhysObject::update_position` from `src/physics/object.rs`, on the
special-value model: if `pos` is non-finite before integrating, substitute
`pos_old` when that is finite and the origin otherwise, and use zero
implicit velocity; then `pos_old = pos`, `pos += velocity + acc·dt·dt`,
`acceleration = 0`. -/
def update_position (o : FPhysObject) (dt : FloatV) : FPhysObject :=
  let pv : FV2 × FV2 :=
    if o.pos.is_finite then (o.pos, FV2.sub o.pos o.pos_old)
    else if o.pos_old.is_finite then (o.pos_old, FV2.zero)
    else (FV2.zero, FV2.zero)
  let pos1 := pv.1
  let velocity := pv.2
  { o with
    pos_old := pos1
    pos := FV2.add pos1 (FV2.add velocity ((o.acceleration.mulF dt).mulF dt))
    acceleration := FV2.zero }

end FPhysObject

/-- End-of-step writeback decision for one particle (the `insert` blocks of
`physics_system`, both paths): the entity is despawned — reported for
discard — iff the particle changed and its final position is NaN
(`if obj.has_changed() { if obj.pos.is_nan() { despawn } … }`). -/
def writebackDespawns (o : FPhysObject) : Bool :=
  o.has_changed && o.pos.is_nan

/-- `PointConstraint::apply` on the special-value model, acting on the
referenced particle (the constraint's anchor and rest distance are exact
program constants): `axis = pos - point`, `n = axis / |axis|`,
`delta = dist - |axis|`, then pin `pos = pos_old = point + n·delta` and
zero the acceleration.  No zero-axis substitution is performed. -/
def pointApplyF (qs : ℚ → ℚ) (pc : PointConstraint) (obj : FPhysObject) :
    FPhysObject :=
  let pointF : FV2 := FV2.ofV2 pc.point
  let axis := FV2.sub obj.pos pointF
  let dist := FloatV.fsqrt qs axis.lengthSqF
  let n := axis.divF dist
  let delta := FloatV.fsub (FloatV.fin pc.dist) dist
  let p := FV2.add pointF (n.mulF delta)
  { obj with pos := p, pos_old := p, acceleration := FV2.zero }

/-- `LinkConstraint::apply` on the special-value model, acting on the two
referenced particles: an exactly-zero axis is replaced by
`(f32::EPSILON, f32::EPSILON)` before normalising. -/
def linkApplyF (qs : ℚ → ℚ) (restLength : ℚ) (pa pb : FPhysObject) :
    FPhysObject × FPhysObject :=
  let axis0 := FV2.sub pa.pos pb.pos
  let axis := if FV2.feq axis0 FV2.zero
    then (⟨FloatV.fin f32Eps, FloatV.fin f32Eps⟩ : FV2) else axis0
  let dist := FloatV.fsqrt qs axis.lengthSqF
  let n := axis.divF dist
  let delta := FloatV.fsub (FloatV.fin restLength) dist
  let a_m := pa.mass
  let b_m := pb.mass
  let corrA := n.mulF (FloatV.fdiv (FloatV.fmul delta b_m) (FloatV.fadd a_m b_m))
  let corrB := n.mulF (FloatV.fdiv (FloatV.fmul delta a_m) (FloatV.fadd a_m b_m))
  ({ pa with pos := FV2.add pa.pos corrA },
   { pb with pos := FV2.sub pb.pos corrB })

/-- The collision closure of the scalar path on the special-value model:
zero-axis substitution, squared-distance overlap test, mass-weighted
corrections. -/
def collideF (qs : ℚ → ℚ) (a b : FPhysObject) : Option (FV2 × FV2) :=
  let axis0 := FV2.sub a.pos b.pos
  let collision_axis := if FV2.feq axis0 FV2.zero
    then (⟨FloatV.fin f32Eps, FloatV.fin f32Eps⟩ : FV2) else axis0
  let combined := FloatV.fadd a.radius b.radius
  let dist_sqr := collision_axis.lengthSqF
  if FloatV.flt dist_sqr (FloatV.fmul combined combined) then
    let dist := FloatV.fsqrt qs dist_sqr
    let n := collision_axis.divF dist
    let delta := FloatV.fsub combined dist
    some (FV2.smulF (FloatV.fmul (FloatV.fdiv b.mass (FloatV.fadd a.mass b.mass)) delta) n,
          FV2.smulF (FloatV.fneg (FloatV.fmul (FloatV.fdiv a.mass (FloatV.fadd a.mass b.mass)) delta)) n)
  else Option.none

/-- The index pairs at which `par_for_pairs` evaluates its mapping: every
`(i, i + 1 + j)` for `i` an index and `j` an offset into the tail past `i`. -/
def evalPairs (n : ℕ) : List (ℕ × ℕ) :=
  (List.range n).flatMap (fun i =>
    (List.range (n - (i + 1))).map (fun j => (i, i + 1 + j)))

theorem V2.ext2 (a b : V2) (hx : a.x = b.x) (hy : a.y = b.y) : a = b := by
  cases a; cases b; simp_all

instance : Zero V2 := ⟨V2.zero⟩

instance : AddCommMonoid V2 where
  add := V2.add
  zero := V2.zero
  add_assoc := by
    intro a b c
    apply V2.ext2 <;> simp [V2.add_def] <;> ring
  zero_add := by
    intro a
    apply V2.ext2 <;>
      simp [V2.add_def, show ((0 : V2)) = ⟨0, 0⟩ from rfl]
  add_zero := by
    intro a
    apply V2.ext2 <;>
      simp [V2.add_def, show ((0 : V2)) = ⟨0, 0⟩ from rfl]
  add_comm := by
    intro a b
    apply V2.ext2 <;> simp [V2.add_def] <;> ring
  nsmul := nsmulRec

theorem V2.zero_eq : (0 : V2) = V2.zero := rfl

theorem sumV2_eq_sum (l : List V2) : sumV2 l = l.sum := by
  simp [sumV2, List.sum_eq_foldl, V2.zero_eq]

/-- C5: `update_position` behaves exactly as specified: with finite `pos`
it stores the old `pos` into `pos_old`, sets
`pos := pos + (pos - pos_old) + acceleration·dt²` and zeroes the
acceleration; with non-finite `pos` it substitutes `pos_old` when that is
finite and the origin otherwise, using zero implicit velocity; the
acceleration is zero after every call. -/
theorem c5_update_position_spec (o : FPhysObject) (dt : FloatV) :
    (o.pos.is_finite = true →
      o.update_position dt =
        { o with
          pos_old := o.pos
          pos := FV2.add o.pos (FV2.add (FV2.sub o.pos o.pos_old)
            ((o.acceleration.mulF dt).mulF dt))
          acceleration := FV2.zero })
    ∧ (o.pos.is_finite = false → o.pos_old.is_finite = true →
      o.update_position dt =
        { o with
          pos_old := o.pos_old
          pos := FV2.add o.pos_old (FV2.add FV2.zero
            ((o.acceleration.mulF dt).mulF dt))
          acceleration := FV2.zero })
    ∧ (o.pos.is_finite = false → o.pos_old.is_finite = false →
      o.update_position dt =
        { o with
          pos_old := FV2.zero
          pos := FV2.add FV2.zero (FV2.add FV2.zero
            ((o.acceleration.mulF dt).mulF dt))
          acceleration := FV2.zero })
    ∧ (o.update_position dt).acceleration = FV2.zero := by
  refine ⟨fun h => ?_, fun h h' => ?_, fun h h' => ?_, ?_⟩
  · simp [FPhysObject.update_position, h]
  · simp [FPhysObject.update_position, h, h']
  · simp [FPhysObject.update_position, h, h']
  · by_cases h : o.pos.is_finite <;> by_cases h' : o.pos_old.is_finite <;>
      simp [FPhysObject.update_position, h, h']

/-- Witness for C5: the finite and the NaN-recovery branches evaluated on
concrete particles. -/
theorem c5_update_position_spec_witness :
    (({ pos := ⟨FloatV.fin 1, FloatV.fin 2⟩,
        pos_old := ⟨FloatV.fin 0, FloatV.fin 0⟩,
        acceleration := ⟨FloatV.fin 3, FloatV.fin 0⟩,
        radius := FloatV.fin 1, mass := FloatV.fin 1 } : FPhysObject).pos.is_finite
      = true)
    ∧ ({ pos := ⟨FloatV.fin 1, FloatV.fin 2⟩,
         pos_old := ⟨FloatV.fin 0, FloatV.fin 0⟩,
         acceleration := ⟨FloatV.fin 3, FloatV.fin 0⟩,
         radius := FloatV.fin 1, mass := FloatV.fin 1 } : FPhysObject).update_position
        (FloatV.fin 2) =
      { pos := ⟨FloatV.fin 14, FloatV.fin 4⟩,
        pos_old := ⟨FloatV.fin 1, FloatV.fin 2⟩,
        acceleration := FV2.zero,
        radius := FloatV.fin 1, mass := FloatV.fin 1 } := by
  refine ⟨rfl, ?_⟩
  have h := (c5_update_position_spec
    ({ pos := ⟨FloatV.fin 1, FloatV.fin 2⟩,
       pos_old := ⟨FloatV.fin 0, FloatV.fin 0⟩,
       acceleration := ⟨FloatV.fin 3, FloatV.fin 0⟩,
       radius := FloatV.fin 1, mass := FloatV.fin 1 }) (FloatV.fin 2)).1 rfl
  rw [h]
  norm_num [FV2.add, FV2.sub, FV2.mulF, FV2.zero, FloatV.fadd, FloatV.fsub,
    FloatV.fneg, FloatV.fmul]

/-- C9: with zero acceleration, iterating the integration step preserves
the implicit velocity `pos - pos_old` exactly (uniform motion); proved on
the exact-value model, where positions are finite. -/
theorem c9_uniform_motion (o : PhysObject) (dt : ℚ)
    (h : o.acceleration = V2.zero) (k : ℕ) :
    ((fun p : PhysObject => p.update_position dt)^[k] o).pos -
      ((fun p : PhysObject => p.update_position dt)^[k] o).pos_old =
      o.pos - o.pos_old := by
  induction k generalizing o with
  | zero => simp
  | succ n ih =>
    rw [Function.iterate_succ_apply]
    have hstep : (o.update_position dt).acceleration = V2.zero := rfl
    rw [ih _ hstep]
    apply V2.ext2 <;>
      simp [PhysObject.update_position, h, V2.sub_def, V2.add_def,
        V2.mulQ, V2.zero]

/-- Witness for C9: three iterations on a concrete particle keep the
implicit velocity at `(2, 3)`. -/
theorem c9_uniform_motion_witness :
    (({ pos := ⟨3, 4⟩, pos_old := ⟨1, 1⟩, acceleration := V2.zero,
        radius := 1, mass := 1 } : PhysObject).acceleration = V2.zero)
    ∧ ((fun p : PhysObject => p.update_position (1 : ℚ))^[3]
        { pos := ⟨3, 4⟩, pos_old := ⟨1, 1⟩, acceleration := V2.zero,
          radius := 1, mass := 1 }).pos -
      ((fun p : PhysObject => p.update_position (1 : ℚ))^[3]
        { pos := ⟨3, 4⟩, pos_old := ⟨1, 1⟩, acceleration := V2.zero,
          radius := 1, mass := 1 }).pos_old = ⟨2, 3⟩ := by
  refine ⟨rfl, ?_⟩
  have h := c9_uniform_motion
    { pos := ⟨3, 4⟩, pos_old := ⟨1, 1⟩, acceleration := V2.zero,
      radius := 1, mass := 1 } (1 : ℚ) rfl 3
  rw [h]
  apply V2.ext2 <;> norm_num [V2.sub_def]

/-- C7: whenever the collision closure reports an overlapping pair with
positive masses, the produced corrections satisfy
`mass_a · Δa + mass_b · Δb = 0` — the pair's centre of mass is unmoved. -/
theorem c7_collision_mass_conservation (sq : ℚ → ℚ) (a b : PhysObject)
    (ta tb : V2) (ha : 0 < a.mass) (hb : 0 < b.mass)
    (h : collide sq a b = some (ta, tb)) :
    V2.smul a.mass ta + V2.smul b.mass tb = 0 := by
  simp only [collide] at h
  split at h <;> split at h <;>
    first
      | exact Option.noConfusion h
      | (injection h with h'
         injection h' with h1 h2
         subst h1
         subst h2
         apply V2.ext2 <;>
           simp only [V2.smul, V2.add_def, show ((0 : V2)) = ⟨0, 0⟩ from rfl] <;>
           ring)

/-- Witness for C7: a concrete overlapping unit-mass pair; the corrections
are `(-1/2, 0)` and `(1/2, 0)` and weighted by the masses they cancel. -/
theorem c7_collision_mass_conservation_witness :
    (0 : ℚ) <
      ({ pos := ⟨0, 0⟩, pos_old := ⟨0, 0⟩, acceleration := V2.zero,
         radius := 1, mass := 1 } : PhysObject).mass
    ∧ collide id
        { pos := ⟨0, 0⟩, pos_old := ⟨0, 0⟩, acceleration := V2.zero,
          radius := 1, mass := 1 }
        { pos := ⟨1, 0⟩, pos_old := ⟨1, 0⟩, acceleration := V2.zero,
          radius := 1, mass := 1 } = some (⟨-1/2, 0⟩, ⟨1/2, 0⟩)
    ∧ V2.smul (1 : ℚ) ⟨-1/2, 0⟩ + V2.smul (1 : ℚ) ⟨1/2, 0⟩ = 0 := by
  have hcol : collide id
      ({ pos := ⟨0, 0⟩, pos_old := ⟨0, 0⟩, acceleration := V2.zero,
         radius := 1, mass := 1 } : PhysObject)
      { pos := ⟨1, 0⟩, pos_old := ⟨1, 0⟩, acceleration := V2.zero,
        radius := 1, mass := 1 } = some (⟨-1/2, 0⟩, ⟨1/2, 0⟩) := by
    norm_num [collide, V2.sub_def, V2.lengthSq, V2.zero, V2.mk.injEq,
      V2.smul, V2.divQ]
  refine ⟨by norm_num, hcol, ?_⟩
  simpa using c7_collision_mass_conservation id
    { pos := ⟨0, 0⟩, pos_old := ⟨0, 0⟩, acceleration := V2.zero,
      radius := 1, mass := 1 }
    { pos := ⟨1, 0⟩, pos_old := ⟨1, 0⟩, acceleration := V2.zero,
      radius := 1, mass := 1 }
    ⟨-1/2, 0⟩ ⟨1/2, 0⟩ (by norm_num) (by norm_num) hcol

/-- Counterexample for C6: with `snap_distance = 15` and the endpoints
exactly 15 apart, the current distance does not exceed `snap_distance`,
yet `should_stay` is false, so the link is removed rather than applied —
the claim's "if and only if the distance does not exceed snap" fails at
equality (the code keeps a link only when `dist² < snap²`, strictly). -/
theorem c6_link_break_counterexample :
    ({ a := 0, b := 1, dist := 10, snap := 15 } : LinkConstraint).should_stay
        (fun i => if i = 0 then ⟨0, 0⟩ else ⟨15, 0⟩) = false
    ∧ V2.distSq ((fun i : ℕ => if i = 0 then (⟨0, 0⟩ : V2) else ⟨15, 0⟩) 0)
        ((fun i : ℕ => if i = 0 then (⟨0, 0⟩ : V2) else ⟨15, 0⟩) 1)
      = ({ a := 0, b := 1, dist := 10, snap := 15 } : LinkConstraint).snap *
        ({ a := 0, b := 1, dist := 10, snap := 15 } : LinkConstraint).snap := by
  constructor <;>
    norm_num [LinkConstraint.should_stay, V2.distSq, V2.lengthSq, V2.sub]

/-- C6 (amended): a resolvable link is kept for the substep loop iff the
current distance between its endpoints is *strictly less* than
`snap_distance` (at equality it is removed); removal happens exactly when
the link fails to resolve or fails `should_stay`, and a snapped link — e.g.
`snap = 15` with the endpoints 20 apart — is filtered out of the applied
set (its entity is despawned, i.e. reported for discard). -/
theorem c6_link_break_strict :
    (∀ (l : LinkConstraint) (get : ℕ → V2) (d : ℚ), 0 ≤ d → 0 ≤ l.snap →
      d * d = V2.distSq (get l.a) (get l.b) →
      (l.should_stay get = true ↔ d < l.snap))
    ∧ (∀ (objs : List PhysObject) (r : LinkRaw) (l : LinkConstraint),
        keepLink objs r = some l ↔
          resolveLink r = some l ∧
            l.should_stay (fun i => (objs[i]!).pos) = true)
    ∧ keepLink
        [{ pos := ⟨0, 0⟩, pos_old := ⟨0, 0⟩, acceleration := V2.zero,
           radius := 1, mass := 1 },
         { pos := ⟨20, 0⟩, pos_old := ⟨20, 0⟩, acceleration := V2.zero,
           radius := 1, mass := 1 }]
        { a := some 0, b := some 1, dist := 10, snap := 15 } = Option.none := by
  refine ⟨?_, ?_, ?_⟩
  · intro l get d hd hsnap hdd
    unfold LinkConstraint.should_stay
    rw [decide_eq_true_iff]
    rw [← hdd]
    exact (mul_self_lt_mul_self_iff hd hsnap).symm
  · intro objs r l
    cases hres : resolveLink r with
    | none => simp [keepLink, hres]
    | some l' =>
      simp only [keepLink, hres]
      by_cases hs : l'.should_stay (fun i => (objs[i]!).pos) = true
      · rw [if_pos hs]
        simp only [Option.some.injEq]
        constructor
        · rintro rfl
          exact ⟨rfl, hs⟩
        · rintro ⟨h1, _⟩
          exact h1
      · rw [if_neg hs]
        constructor
        · intro h
          exact Option.noConfusion h
        · rintro ⟨h1, h2⟩
          injection h1 with h1'
          subst h1'
          exact absurd h2 hs
  · norm_num [keepLink, resolveLink, LinkConstraint.should_stay, V2.distSq,
      V2.lengthSq, V2.sub, Option.bind, List.getElem!_cons_zero,
      List.getElem!_cons_succ]

/-- Witness for C6: a resolvable link with endpoints 12 apart and
`snap = 15` is kept. -/
theorem c6_link_break_strict_witness :
    (0 : ℚ) ≤ 12 ∧ (0 : ℚ) ≤ 15 ∧
    (12 : ℚ) * 12 =
      V2.distSq ((fun i : ℕ => if i = 0 then (⟨0, 0⟩ : V2) else ⟨12, 0⟩) 0)
        ((fun i : ℕ => if i = 0 then (⟨0, 0⟩ : V2) else ⟨12, 0⟩) 1) ∧
    ({ a := 0, b := 1, dist := 10, snap := 15 } : LinkConstraint).should_stay
      (fun i => if i = 0 then ⟨0, 0⟩ else ⟨12, 0⟩) = true := by
  have hdd : (12 : ℚ) * 12 =
      V2.distSq ((fun i : ℕ => if i = 0 then (⟨0, 0⟩ : V2) else ⟨12, 0⟩) 0)
        ((fun i : ℕ => if i = 0 then (⟨0, 0⟩ : V2) else ⟨12, 0⟩) 1) := by
    norm_num [V2.distSq, V2.lengthSq, V2.sub]
  refine ⟨by norm_num, by norm_num, hdd, ?_⟩
  exact (c6_link_break_strict.1
    { a := 0, b := 1, dist := 10, snap := 15 }
    (fun i => if i = 0 then ⟨0, 0⟩ else ⟨12, 0⟩) 12
    (by norm_num) (by norm_num) hdd).mpr (by norm_num)

/-- C2: the `main.rs` iteration's gravity setting admits the point-source
mode `Towards { point, strength }`, and whenever the abstracted square root
is exact at the squared axis length (`sq L · sq L = L`), its per-particle
evaluation equals the spec formula `axis·strength/(|axis|²·|axis|)` with
`axis = point - pos` pointing from the particle to the point. -/
theorem c2_point_source_mode (sq : ℚ → ℚ) (point : V2) (strength : ℚ)
    (pos : V2)
    (hsq : sq ((point - pos).lengthSq) * sq ((point - pos).lengthSq)
      = (point - pos).lengthSq) :
    MainSim.Gravity.acceleration sq (MainSim.Gravity.towards point strength)
        pos
      = MainSim.specPointSource sq point strength pos
    ∧ (MainSim.Gravity.towards point strength).as_str = "Towards" := by
  refine ⟨?_, rfl⟩
  apply V2.ext2 <;>
    simp only [MainSim.Gravity.acceleration, MainSim.towardsAccel,
      MainSim.specPointSource, V2.mulQ, V2.divQ] <;>
  · rw [hsq]
    ring

/-- Witness for C2: point `(0,0)`, strength `2`, particle at `(1,0)`;
the exactness hypothesis holds for `sq = id` since the squared length is 1. -/
theorem c2_point_source_mode_witness :
    (id (((⟨0, 0⟩ : V2) - ⟨1, 0⟩).lengthSq) *
        id (((⟨0, 0⟩ : V2) - ⟨1, 0⟩).lengthSq)
      = ((⟨0, 0⟩ : V2) - ⟨1, 0⟩).lengthSq)
    ∧ (MainSim.Gravity.acceleration id
          (MainSim.Gravity.towards ⟨0, 0⟩ 2) ⟨1, 0⟩
        = MainSim.specPointSource id ⟨0, 0⟩ 2 ⟨1, 0⟩
      ∧ (MainSim.Gravity.towards (⟨0, 0⟩ : V2) (2 : ℚ)).as_str = "Towards") := by
  have hsq : id (((⟨0, 0⟩ : V2) - ⟨1, 0⟩).lengthSq) *
      id (((⟨0, 0⟩ : V2) - ⟨1, 0⟩).lengthSq)
      = ((⟨0, 0⟩ : V2) - ⟨1, 0⟩).lengthSq := by
    norm_num [V2.lengthSq, V2.sub_def]
  exact ⟨hsq, c2_point_source_mode id ⟨0, 0⟩ 2 ⟨1, 0⟩ hsq⟩

/-- C3 (amended): the writeback reports a particle for despawn iff its
final position has a NaN component (a NaN position always counts as
changed); positions that are infinite but not NaN are not reported. -/
theorem c3_writeback_nan_iff (o : FPhysObject) :
    writebackDespawns o = true ↔ o.pos.is_nan = true := by
  unfold writebackDespawns FPhysObject.has_changed
  constructor
  · intro h
    exact ((Bool.and_eq_true _ _).mp h).2
  · intro h
    have hch : FV2.feq o.pos o.pos_old = false := by
      rcases (Bool.or_eq_true _ _).mp (by simpa [FV2.is_nan] using h) with hx | hy
      · have hx' : o.pos.x = FloatV.nan := by
          cases hxc : o.pos.x <;> simp_all [FloatV.is_nan]
        have : FloatV.feq o.pos.x o.pos_old.x = false := by
          rw [hx']; cases o.pos_old.x <;> rfl
        simp [FV2.feq, this]
      · have hy' : o.pos.y = FloatV.nan := by
          cases hyc : o.pos.y <;> simp_all [FloatV.is_nan]
        have : FloatV.feq o.pos.y o.pos_old.y = false := by
          rw [hy']; cases o.pos_old.y <;> rfl
        simp [FV2.feq, this]
    simp [hch, h]

/-- Counterexample for C3: a particle whose final position is infinite (but
not NaN) in its x component is non-finite, yet the writeback does not
report it for discard — only NaN positions are despawned. -/
theorem c3_writeback_counterexample :
    (({ pos := ⟨FloatV.pinf, FloatV.fin 0⟩,
        pos_old := ⟨FloatV.fin 0, FloatV.fin 0⟩,
        acceleration := FV2.zero, radius := FloatV.fin 1,
        mass := FloatV.fin 1 } : FPhysObject).pos.is_finite = false)
    ∧ writebackDespawns
        { pos := ⟨FloatV.pinf, FloatV.fin 0⟩,
          pos_old := ⟨FloatV.fin 0, FloatV.fin 0⟩,
          acceleration := FV2.zero, radius := FloatV.fin 1,
          mass := FloatV.fin 1 } = false := by
  exact ⟨rfl, rfl⟩

/-- C10: when `gravity_set_velocity` holds and both gravity terms are
active in a substep, each particle's `pos_old` is first written by the
N-body `set_velocity` and then overwritten by the field term's
`set_velocity`, so the whole phase equals applying only the field term's
velocity — and equals the same phase with the N-body term disabled
(`gravitational_constant = 0`): the N-body contribution is discarded, not
summed. -/
theorem c10_field_velocity_overwrites_nbody (sq : ℚ → ℚ) (s : PhysSettings)
    (dt : ℚ) (objs : List PhysObject)
    (hsv : s.gravity_set_velocity = true)
    (hG : |s.gravitational_constant| > f32Eps)
    (hmode : s.gravity.isNone = false) :
    gravityPhase sq s dt objs
      = objs.map (fun o =>
          o.set_velocity ((s.gravity.acceleration o.pos).mulQ dt))
    ∧ gravityPhase sq s dt objs
      = gravityPhase sq { s with gravitational_constant := 0 } dt objs := by
  have h1 : gravityPhase sq s dt objs
      = objs.map (fun o =>
          o.set_velocity ((s.gravity.acceleration o.pos).mulQ dt)) := by
    unfold gravityPhase
    simp only [hsv, hG, if_true, hmode, Bool.false_eq_true, if_false,
      if_pos hG]
    rw [List.map_map]
    congr 1
  have h2 : gravityPhase sq { s with gravitational_constant := 0 } dt objs
      = objs.map (fun o =>
          o.set_velocity ((s.gravity.acceleration o.pos).mulQ dt)) := by
    unfold gravityPhase
    have hG0 : ¬(|(0 : ℚ)| > f32Eps) := by norm_num [f32Eps]
    simp only [hsv, hmode, Bool.false_eq_true, if_false, if_neg hG0,
      if_true]
  exact ⟨h1, h1.trans h2.symm⟩

/-- Witness for C10: a one-particle system with `G = 1` and directional
gravity `(0, -1)` under `gravity_set_velocity`. -/
theorem c10_field_velocity_overwrites_nbody_witness :
    (({ gravity := Gravity.dir ⟨0, -1⟩, gravity_set_velocity := true,
        bounds := Bounds.none, gravitational_constant := 1, sub_steps := 1,
        collisions := true, use_simd := false } : PhysSettings).gravity_set_velocity
      = true)
    ∧ abs (({ gravity := Gravity.dir ⟨0, -1⟩, gravity_set_velocity := true,
              bounds := Bounds.none, gravitational_constant := 1,
              sub_steps := 1, collisions := true,
              use_simd := false } : PhysSettings).gravitational_constant)
      > f32Eps
    ∧ (gravityPhase id
        { gravity := Gravity.dir ⟨0, -1⟩, gravity_set_velocity := true,
          bounds := Bounds.none, gravitational_constant := 1, sub_steps := 1,
          collisions := true, use_simd := false } 2
        [{ pos := ⟨0, 0⟩, pos_old := ⟨0, 0⟩, acceleration := V2.zero,
           radius := 1, mass := 1 }]
      = [({ pos := ⟨0, 0⟩, pos_old := ⟨0, 0⟩, acceleration := V2.zero,
            radius := 1, mass := 1 } : PhysObject).set_velocity
          (((Gravity.dir (⟨0, -1⟩ : V2)).acceleration ⟨0, 0⟩).mulQ 2)]) := by
  refine ⟨rfl, by norm_num [f32Eps], ?_⟩
  have h := c10_field_velocity_overwrites_nbody id
    { gravity := Gravity.dir ⟨0, -1⟩, gravity_set_velocity := true,
      bounds := Bounds.none, gravitational_constant := 1, sub_steps := 1,
      collisions := true, use_simd := false } 2
    [{ pos := ⟨0, 0⟩, pos_old := ⟨0, 0⟩, acceleration := V2.zero,
       radius := 1, mass := 1 }]
    rfl (by norm_num [f32Eps]) rfl
  simpa using h.1

/-- Helper: `filterMap` with a total `some`-valued function is a `map`. -/
theorem filterMap_someF {α β : Type} (l : List α) (g : α → β) :
    l.filterMap (fun x => some (g x)) = l.map g := by
  induction l with
  | nil => rfl
  | cons a t ih => simp [List.filterMap_cons, ih]

/-- C8: `par_for_pairs` evaluates its mapping exactly once per unordered
pair `(i, j)` with `i < j` — the recorded index pairs of the map phase are
precisely `evalPairs n`, which enumerates every such pair without
duplicates — and on five items whose mapping produces `Some (5, 7)` only
for the pair at indices `(1, 3)` (values 20 and 40), exactly one correction
is applied to item 1 and one to item 3, and none elsewhere. -/
theorem c8_par_for_pairs_once_per_pair :
    (∀ n a b : ℕ, ((a, b) ∈ evalPairs n ↔ a < b ∧ b < n))
    ∧ (∀ n : ℕ, (evalPairs n).Nodup)
    ∧ (∀ (E : Type) (inst : Inhabited E) (xs : List E),
        ((@pairResults E E inst xs (fun a b => some (a, b))).flatten).map
          (fun p => (p.1.1, p.2.1)) = evalPairs xs.length)
    ∧ parForPairs [10, 20, 30, 40, 50]
        (fun a b => if a = 20 ∧ b = 40 then some (5, 7) else Option.none)
        (fun o t => o + t) = [10, 25, 30, 47, 50] := by
  refine ⟨?_, ?_, ?_, ?_⟩
  · intro n a b
    simp only [evalPairs, List.mem_flatMap, List.mem_map, List.mem_range,
      Prod.mk.injEq]
    constructor
    · rintro ⟨i, hi, j, hj, rfl, rfl⟩
      omega
    · rintro ⟨hab, hbn⟩
      exact ⟨a, by omega, b - a - 1, by omega, rfl, by omega⟩
  · intro n
    rw [evalPairs, List.nodup_flatMap]
    constructor
    · intro i _
      refine List.Nodup.map ?_ (List.nodup_range _)
      intro x y hxy
      simpa using congrArg Prod.snd hxy
    · refine List.Pairwise.imp ?_ (List.pairwise_lt_range n)
      intro i j hij
      simp only [Function.onFun, List.disjoint_left]
      rintro ⟨a, b⟩ ha hb
      simp only [List.mem_map, List.mem_range, Prod.mk.injEq] at ha hb
      obtain ⟨x, _, hx1, _⟩ := ha
      obtain ⟨y, _, hy1, _⟩ := hb
      omega
  · intro E inst xs
    rw [pairResults, evalPairs, List.map_flatten, List.map_map]
    have hrow : ((fun l : List ((ℕ × E) × ℕ × E) =>
          List.map (fun p => (p.1.1, p.2.1)) l) ∘
        fun io : ℕ × E =>
          List.filterMap (fun jo : ℕ × E =>
            Option.map (fun ab : E × E => ((io.1, ab.1), io.1 + 1 + jo.1, ab.2))
              (some (io.2, jo.2)))
            (List.drop (io.1 + 1) xs).enum)
        = fun io : ℕ × E =>
          (List.range (xs.length - (io.1 + 1))).map
            (fun j => (io.1, io.1 + 1 + j)) := by
      funext io
      simp only [Function.comp, Option.map_some']
      rw [filterMap_someF, List.map_map]
      have h1 : ((fun p : (ℕ × E) × ℕ × E => (p.1.1, p.2.1)) ∘
          fun jo : ℕ × E =>
            ((io.1, (io.2, jo.2).1), io.1 + 1 + jo.1, (io.2, jo.2).2))
          = (fun j : ℕ => (io.1, io.1 + 1 + j)) ∘ Prod.fst := rfl
      rw [h1, ← List.map_map, List.enum_map_fst, List.length_drop]
    rw [hrow]
    have h2 : (fun io : ℕ × E =>
        (List.range (xs.length - (io.1 + 1))).map
          (fun j => (io.1, io.1 + 1 + j)))
        = (fun i : ℕ =>
            (List.range (xs.length - (i + 1))).map
              (fun j => (i, i + 1 + j))) ∘ Prod.fst := rfl
    rw [h2]
    rw [List.flatMap]
    rw [← List.map_map, List.enum_map_fst]
  · rfl

namespace FloatV

theorem fadd_fin (a b : ℚ) : fadd (fin a) (fin b) = fin (a + b) := rfl

theorem fsub_fin (a b : ℚ) : fsub (fin a) (fin b) = fin (a - b) := by
  simp [fsub, fadd, fneg, sub_eq_add_neg]

theorem fmul_fin (a b : ℚ) : fmul (fin a) (fin b) = fin (a * b) := rfl

theorem fdiv_fin (a b : ℚ) (hb : b ≠ 0) :
    fdiv (fin a) (fin b) = fin (a / b) := by
  simp [fdiv, hb]

theorem fsqrt_fin_pos (qs : ℚ → ℚ) (q : ℚ) (hq : 0 < q) :
    fsqrt qs (fin q) = fin (qs q) := by
  simp [fsqrt, not_lt_of_gt hq, hq.ne']

theorem feq_fin (a b : ℚ) : feq (fin a) (fin b) = decide (a = b) := rfl

end FloatV

theorem FV2.finite_form (v : FV2) (h : v.is_finite = true) :
    ∃ a b : ℚ, v = ⟨FloatV.fin a, FloatV.fin b⟩ := by
  rcases v with ⟨x, y⟩
  cases x <;> cases y <;> simp_all [FV2.is_finite, FloatV.is_finite]

theorem sq_sum_pos (u v : ℚ) (h : ¬(u = 0 ∧ v = 0)) : 0 < u * u + v * v := by
  rcases Classical.em (u = 0) with hu | hu
  · have hv : v ≠ 0 := by tauto
    subst hu
    nlinarith [mul_self_pos.mpr hv]
  · nlinarith [mul_self_pos.mpr hu, mul_self_nonneg v]

/-- Helper: on a finite non-zero axis the hardware length is a non-zero
finite value. -/
theorem axis_dist_fin (qs : ℚ → ℚ) (hqs : ∀ q : ℚ, 0 < q → 0 < qs q)
    (u v : ℚ) (huv : ¬(u = 0 ∧ v = 0)) :
    ∃ d : ℚ, d ≠ 0 ∧
      FloatV.fsqrt qs (FV2.lengthSqF ⟨FloatV.fin u, FloatV.fin v⟩)
        = FloatV.fin d := by
  have hs : 0 < u * u + v * v := sq_sum_pos u v huv
  have hl : FV2.lengthSqF ⟨FloatV.fin u, FloatV.fin v⟩
      = FloatV.fin (u * u + v * v) := rfl
  rw [hl, FloatV.fsqrt_fin_pos qs _ hs]
  exact ⟨qs (u * u + v * v), (hqs _ hs).ne', rfl⟩

/-- Helper: the overlap branch of the collision closure on a finite
non-zero axis yields NaN-free corrections. -/
theorem collide_chain (qs : ℚ → ℚ) (hqs : ∀ q : ℚ, 0 < q → 0 < qs q)
    (u v ra rb ma mb : ℚ) (t1 t2 : FV2) (huv : ¬(u = 0 ∧ v = 0))
    (hm : ma + mb ≠ 0)
    (h : (if FloatV.flt (FV2.lengthSqF ⟨FloatV.fin u, FloatV.fin v⟩)
            (FloatV.fmul (FloatV.fadd (FloatV.fin ra) (FloatV.fin rb))
              (FloatV.fadd (FloatV.fin ra) (FloatV.fin rb))) = true then
        some (FV2.smulF
            (FloatV.fmul
              (FloatV.fdiv (FloatV.fin mb)
                (FloatV.fadd (FloatV.fin ma) (FloatV.fin mb)))
              (FloatV.fsub (FloatV.fadd (FloatV.fin ra) (FloatV.fin rb))
                (FloatV.fsqrt qs
                  (FV2.lengthSqF ⟨FloatV.fin u, FloatV.fin v⟩))))
            (FV2.divF ⟨FloatV.fin u, FloatV.fin v⟩
              (FloatV.fsqrt qs
                (FV2.lengthSqF ⟨FloatV.fin u, FloatV.fin v⟩))),
          FV2.smulF
            (FloatV.fneg (FloatV.fmul
              (FloatV.fdiv (FloatV.fin ma)
                (FloatV.fadd (FloatV.fin ma) (FloatV.fin mb)))
              (FloatV.fsub (FloatV.fadd (FloatV.fin ra) (FloatV.fin rb))
                (FloatV.fsqrt qs
                  (FV2.lengthSqF ⟨FloatV.fin u, FloatV.fin v⟩)))))
            (FV2.divF ⟨FloatV.fin u, FloatV.fin v⟩
              (FloatV.fsqrt qs
                (FV2.lengthSqF ⟨FloatV.fin u, FloatV.fin v⟩))))
      else Option.none) = some (t1, t2)) :
    t1.is_nan = false ∧ t2.is_nan = false := by
  have hs : 0 < u * u + v * v := sq_sum_pos u v huv
  have hl : FV2.lengthSqF ⟨FloatV.fin u, FloatV.fin v⟩
      = FloatV.fin (u * u + v * v) := rfl
  have hd0 : qs (u * u + v * v) ≠ 0 := (hqs _ hs).ne'
  rw [hl, FloatV.fsqrt_fin_pos qs _ hs] at h
  split at h
  · injection h with h'
    injection h' with h1 h2
    subst h1
    subst h2
    constructor <;>
      simp [FV2.divF, FV2.mulF, FV2.smulF, FloatV.fdiv_fin _ _ hd0,
        FloatV.fsub_fin, FloatV.fmul_fin, FloatV.fadd_fin, FloatV.fneg,
        FloatV.fdiv_fin _ _ hm, FV2.is_nan, FloatV.is_nan]
  · exact Option.noConfusion h

/-- C4 (amended): the N-body term of a coincident pair is exactly zero, and
the zero-axis epsilon substitution of `LinkConstraint::apply` and of the
collision closure keeps those two operations NaN-free on finite inputs with
positive masses (assuming the hardware square root of a positive value is
positive) — but `PointConstraint::apply` performs no such substitution and
does produce NaN (see the counterexample). -/
theorem c4_degenerate_absorption :
    (∀ (G : ℚ) (sq : ℚ → ℚ) (a b : PhysObject), b.pos = a.pos →
      nbodyPairTerm G sq a b = V2.zero)
    ∧ (∀ qs : ℚ → ℚ, (∀ q : ℚ, 0 < q → 0 < qs q) →
       ∀ (rest : ℚ) (pa pb : FPhysObject) (ma mb : ℚ),
        pa.pos.is_finite = true → pb.pos.is_finite = true →
        pa.mass = FloatV.fin ma → pb.mass = FloatV.fin mb →
        0 < ma → 0 < mb →
        (linkApplyF qs rest pa pb).1.pos.is_nan = false ∧
        (linkApplyF qs rest pa pb).2.pos.is_nan = false)
    ∧ (∀ qs : ℚ → ℚ, (∀ q : ℚ, 0 < q → 0 < qs q) →
       ∀ (a b : FPhysObject) (ma mb ra rb : ℚ) (t1 t2 : FV2),
        a.pos.is_finite = true → b.pos.is_finite = true →
        a.mass = FloatV.fin ma → b.mass = FloatV.fin mb →
        a.radius = FloatV.fin ra → b.radius = FloatV.fin rb →
        0 < ma → 0 < mb →
        collideF qs a b = some (t1, t2) →
        t1.is_nan = false ∧ t2.is_nan = false) := by
  refine ⟨?_, ?_, ?_⟩
  · intro G sq a b hco
    simp [nbodyPairTerm, hco, V2.sub_def, V2.lengthSq]
  · intro qs hqs rest pa pb ma mb hfa hfb hma hmb hma0 hmb0
    obtain ⟨ax, ay, hpa⟩ := FV2.finite_form pa.pos hfa
    obtain ⟨bx, by', hpb⟩ := FV2.finite_form pb.pos hfb
    have hm : ma + mb ≠ 0 := by positivity
    have hsubst : FV2.sub ⟨FloatV.fin ax, FloatV.fin ay⟩
        ⟨FloatV.fin bx, FloatV.fin by'⟩
        = ⟨FloatV.fin (ax - bx), FloatV.fin (ay - by')⟩ := by
      simp [FV2.sub, FloatV.fsub_fin]
    simp only [linkApplyF, hpa, hpb, hma, hmb, hsubst]
    by_cases hz : (ax - bx = 0 ∧ ay - by' = 0)
    · rw [if_pos (by simp [FV2.feq, FloatV.feq_fin, FV2.zero, hz.1, hz.2])]
      obtain ⟨d, hd, hdist⟩ := axis_dist_fin qs hqs f32Eps f32Eps
        (by norm_num [f32Eps])
      rw [hdist]
      constructor <;>
        simp [FV2.divF, FV2.mulF, FV2.add, FV2.sub, FloatV.fdiv_fin _ _ hd,
          FloatV.fsub_fin, FloatV.fmul_fin, FloatV.fadd_fin,
          FloatV.fdiv_fin _ _ hm, FV2.is_nan, FloatV.is_nan]
    · rw [if_neg (by simp [FV2.feq, FloatV.feq_fin, FV2.zero]; tauto)]
      obtain ⟨d, hd, hdist⟩ := axis_dist_fin qs hqs (ax - bx) (ay - by') hz
      rw [hdist]
      constructor <;>
        simp [FV2.divF, FV2.mulF, FV2.add, FV2.sub, FloatV.fdiv_fin _ _ hd,
          FloatV.fsub_fin, FloatV.fmul_fin, FloatV.fadd_fin,
          FloatV.fdiv_fin _ _ hm, FV2.is_nan, FloatV.is_nan]
  · intro qs hqs a b ma mb ra rb t1 t2 hfa hfb hma hmb hra hrb hma0 hmb0 h
    obtain ⟨ax, ay, hpa⟩ := FV2.finite_form a.pos hfa
    obtain ⟨bx, by', hpb⟩ := FV2.finite_form b.pos hfb
    have hm : ma + mb ≠ 0 := by positivity
    have hsubst : FV2.sub ⟨FloatV.fin ax, FloatV.fin ay⟩
        ⟨FloatV.fin bx, FloatV.fin by'⟩
        = ⟨FloatV.fin (ax - bx), FloatV.fin (ay - by')⟩ := by
      simp [FV2.sub, FloatV.fsub_fin]
    simp only [collideF, hpa, hpb, hma, hmb, hra, hrb, hsubst] at h
    by_cases hz : (ax - bx = 0 ∧ ay - by' = 0)
    · rw [show (if FV2.feq ⟨FloatV.fin (ax - bx), FloatV.fin (ay - by')⟩
              FV2.zero = true
            then (⟨FloatV.fin f32Eps, FloatV.fin f32Eps⟩ : FV2)
            else ⟨FloatV.fin (ax - bx), FloatV.fin (ay - by')⟩)
          = ⟨FloatV.fin f32Eps, FloatV.fin f32Eps⟩
        from if_pos (by simp [FV2.feq, FloatV.feq_fin, FV2.zero, hz.1, hz.2])]
        at h
      exact collide_chain qs hqs f32Eps f32Eps ra rb ma mb t1 t2
        (by norm_num [f32Eps]) hm h
    · rw [show (if FV2.feq ⟨FloatV.fin (ax - bx), FloatV.fin (ay - by')⟩
              FV2.zero = true
            then (⟨FloatV.fin f32Eps, FloatV.fin f32Eps⟩ : FV2)
            else ⟨FloatV.fin (ax - bx), FloatV.fin (ay - by')⟩)
          = ⟨FloatV.fin (ax - bx), FloatV.fin (ay - by')⟩
        from if_neg (by simp [FV2.feq, FloatV.feq_fin, FV2.zero]; tauto)]
        at h
      exact collide_chain qs hqs (ax - bx) (ay - by') ra rb ma mb t1 t2 hz hm h

/-- Counterexample for C4: `PointConstraint::apply` does not
epsilon-substitute its zero-length axis — a particle sitting exactly at its
anchor point yields `n = 0/0 = NaN` and hence a NaN position, so not every
zero separation in constraint math is absorbed. -/
theorem c4_point_constraint_nan_counterexample :
    (({ pos := ⟨FloatV.fin 5, FloatV.fin 7⟩,
        pos_old := ⟨FloatV.fin 5, FloatV.fin 7⟩,
        acceleration := FV2.zero, radius := FloatV.fin 1,
        mass := FloatV.fin 1 } : FPhysObject).pos
      = FV2.ofV2 ({ a := 0, dist := 3, point := ⟨5, 7⟩ } : PointConstraint).point)
    ∧ (pointApplyF id { a := 0, dist := 3, point := ⟨5, 7⟩ }
        { pos := ⟨FloatV.fin 5, FloatV.fin 7⟩,
          pos_old := ⟨FloatV.fin 5, FloatV.fin 7⟩,
          acceleration := FV2.zero, radius := FloatV.fin 1,
          mass := FloatV.fin 1 }).pos.is_nan = true := by
  constructor
  · rfl
  · norm_num [pointApplyF, FV2.ofV2, FV2.sub, FV2.add, FV2.divF, FV2.mulF,
      FV2.lengthSqF, FloatV.fsub, FloatV.fadd, FloatV.fneg, FloatV.fmul,
      FloatV.fdiv, FloatV.fsqrt, FV2.is_nan, FloatV.is_nan, FV2.zero]

/-- Witness for C4: the three absorbed degeneracies evaluated concretely —
a coincident N-body pair, a link between distinct finite particles, and a
colliding pair — each NaN-free. -/
theorem c4_degenerate_absorption_witness :
    nbodyPairTerm 1 id
      { pos := ⟨2, 3⟩, pos_old := ⟨2, 3⟩, acceleration := V2.zero,
        radius := 1, mass := 1 }
      { pos := ⟨2, 3⟩, pos_old := ⟨2, 3⟩, acceleration := V2.zero,
        radius := 1, mass := 5 } = V2.zero
    ∧ (linkApplyF id 10
        { pos := ⟨FloatV.fin 0, FloatV.fin 0⟩,
          pos_old := ⟨FloatV.fin 0, FloatV.fin 0⟩,
          acceleration := FV2.zero, radius := FloatV.fin 1,
          mass := FloatV.fin 1 }
        { pos := ⟨FloatV.fin 3, FloatV.fin 0⟩,
          pos_old := ⟨FloatV.fin 3, FloatV.fin 0⟩,
          acceleration := FV2.zero, radius := FloatV.fin 1,
          mass := FloatV.fin 1 }).1.pos.is_nan = false
    ∧ collideF id
        { pos := ⟨FloatV.fin 0, FloatV.fin 0⟩,
          pos_old := ⟨FloatV.fin 0, FloatV.fin 0⟩,
          acceleration := FV2.zero, radius := FloatV.fin 1,
          mass := FloatV.fin 1 }
        { pos := ⟨FloatV.fin 1, FloatV.fin 0⟩,
          pos_old := ⟨FloatV.fin 1, FloatV.fin 0⟩,
          acceleration := FV2.zero, radius := FloatV.fin 1,
          mass := FloatV.fin 1 }
      = some (⟨FloatV.fin (-1/2), FloatV.fin 0⟩, ⟨FloatV.fin (1/2), FloatV.fin 0⟩)
    ∧ (⟨FloatV.fin (-1/2), FloatV.fin 0⟩ : FV2).is_nan = false := by
  have hcol : collideF id
      ({ pos := ⟨FloatV.fin 0, FloatV.fin 0⟩,
         pos_old := ⟨FloatV.fin 0, FloatV.fin 0⟩,
         acceleration := FV2.zero, radius := FloatV.fin 1,
         mass := FloatV.fin 1 } : FPhysObject)
      { pos := ⟨FloatV.fin 1, FloatV.fin 0⟩,
        pos_old := ⟨FloatV.fin 1, FloatV.fin 0⟩,
        acceleration := FV2.zero, radius := FloatV.fin 1,
        mass := FloatV.fin 1 }
      = some (⟨FloatV.fin (-1/2), FloatV.fin 0⟩,
              ⟨FloatV.fin (1/2), FloatV.fin 0⟩) := by
    norm_num [collideF, FV2.sub, FV2.divF, FV2.mulF, FV2.smulF,
      FV2.lengthSqF, FV2.feq, FV2.zero, FloatV.fsub, FloatV.fadd,
      FloatV.fneg, FloatV.fmul, FloatV.fdiv, FloatV.fsqrt, FloatV.flt,
      FloatV.feq]
  refine ⟨?_, ?_, hcol, ?_⟩
  · exact c4_degenerate_absorption.1 1 id
      { pos := ⟨2, 3⟩, pos_old := ⟨2, 3⟩, acceleration := V2.zero,
        radius := 1, mass := 1 }
      { pos := ⟨2, 3⟩, pos_old := ⟨2, 3⟩, acceleration := V2.zero,
        radius := 1, mass := 5 } rfl
  · exact (c4_degenerate_absorption.2.1 id (fun q hq => hq) 10
      { pos := ⟨FloatV.fin 0, FloatV.fin 0⟩,
        pos_old := ⟨FloatV.fin 0, FloatV.fin 0⟩,
        acceleration := FV2.zero, radius := FloatV.fin 1,
        mass := FloatV.fin 1 }
      { pos := ⟨FloatV.fin 3, FloatV.fin 0⟩,
        pos_old := ⟨FloatV.fin 3, FloatV.fin 0⟩,
        acceleration := FV2.zero, radius := FloatV.fin 1,
        mass := FloatV.fin 1 } 1 1 rfl rfl rfl rfl (by norm_num)
      (by norm_num)).1
  · exact (c4_degenerate_absorption.2.2 id (fun q hq => hq)
      { pos := ⟨FloatV.fin 0, FloatV.fin 0⟩,
        pos_old := ⟨FloatV.fin 0, FloatV.fin 0⟩,
        acceleration := FV2.zero, radius := FloatV.fin 1,
        mass := FloatV.fin 1 }
      { pos := ⟨FloatV.fin 1, FloatV.fin 0⟩,
        pos_old := ⟨FloatV.fin 1, FloatV.fin 0⟩,
        acceleration := FV2.zero, radius := FloatV.fin 1,
        mass := FloatV.fin 1 } 1 1 1 1
      ⟨FloatV.fin (-1/2), FloatV.fin 0⟩ ⟨FloatV.fin (1/2), FloatV.fin 0⟩
      rfl rfl rfl rfl rfl rfl (by norm_num) (by norm_num) hcol).1

/-- Helper: after `wrap_back`, padded slot `m` holds live particle
`m % count` (each padding slot is a wrapped copy of an early particle). -/
theorem wrapBack_arr (st : SimdState) (h1 : 1 ≤ st.count) (m : ℕ)
    (hm : m < st.count + 3) :
    (wrapBack st).arr m = st.arr (m % st.count) := by
  rcases Nat.lt_or_ge m st.count with hlt | hge
  · have hne0 : m ≠ st.count := by omega
    have hne1 : m ≠ st.count + 1 := by omega
    have hne2 : m ≠ st.count + 2 := by omega
    simp [wrapBack, updF, hne0, hne1, hne2, Nat.mod_eq_of_lt hlt]
  · have hk : m = st.count ∨ m = st.count + 1 ∨ m = st.count + 2 := by omega
    rcases hk with rfl | rfl | rfl
    · simp [wrapBack, updF, Nat.mod_self,
        show st.count ≠ st.count + 2 from by omega,
        show st.count ≠ st.count + 1 from by omega,
        Nat.zero_mod]
    · rcases Nat.lt_or_ge 1 st.count with hc | hc
      · -- count ≥ 2
        simp [wrapBack, updF,
          show st.count + 1 ≠ st.count + 2 from by omega,
          show (1 : ℕ) ≠ st.count from by omega,
          Nat.add_mod_left, Nat.mod_eq_of_lt hc]
      · -- count = 1
        have hc1 : st.count = 1 := by omega
        simp [wrapBack, updF, hc1]
    · rcases Nat.lt_or_ge 2 st.count with hc | hc
      · -- count ≥ 3
        simp [wrapBack, updF,
          show (2 : ℕ) ≠ st.count + 1 from by omega,
          show (2 : ℕ) ≠ st.count from by omega,
          Nat.add_mod_left, Nat.mod_eq_of_lt hc]
      · have : st.count = 1 ∨ st.count = 2 := by omega
        rcases this with h2 | h2 <;> simp [wrapBack, updF, h2]

/-- Helper: summing a function over `range n` rotated by `l` (mod `n`)
equals the plain sum — the vectorized N-body loop visits each partner once,
in rotated order. -/
theorem sumV2_range_rotate (n : ℕ) (hn : 1 ≤ n) (l : ℕ) (f : ℕ → V2) :
    sumV2 ((List.range n).map (fun i => f ((i + l) % n)))
      = sumV2 ((List.range n).map f) := by
  rw [sumV2_eq_sum, sumV2_eq_sum]
  have hmm : (List.range n).map (fun i => f ((i + l) % n))
      = ((List.range n).map (fun i => (i + l) % n)).map f := by
    rw [List.map_map]
    rfl
  rw [hmm]
  have hperm : List.Perm ((List.range n).map (fun i => (i + l) % n))
      (List.range n) := by
    have hnodup : ((List.range n).map (fun i => (i + l) % n)).Nodup := by
      refine List.Nodup.map_on ?_ (List.nodup_range n)
      intro x hx y hy hxy
      simp only [List.mem_range] at hx hy
      have h1 : (x + l) % n = (y + l) % n := hxy
      have h2 : x % n = y % n := Nat.ModEq.add_right_cancel' l h1
      rwa [Nat.mod_eq_of_lt hx, Nat.mod_eq_of_lt hy] at h2
    rw [List.perm_ext_iff_of_nodup hnodup (List.nodup_range n)]
    intro b
    simp only [List.mem_map, List.mem_range]
    constructor
    · rintro ⟨i, hi, rfl⟩
      exact Nat.mod_lt _ (by omega)
    · intro hb
      refine ⟨(b + (n - l % n)) % n, Nat.mod_lt _ (by omega), ?_⟩
      rw [Nat.mod_add_mod]
      have heq : b + (n - l % n) + l = b + (n + n * (l / n)) := by
        have h := Nat.div_add_mod l n
        have hle : l % n ≤ n := le_of_lt (Nat.mod_lt _ (by omega))
        omega
      rw [heq, ← Nat.add_assoc, Nat.add_mul_mod_self_left, Nat.add_mod_right,
        Nat.mod_eq_of_lt hb]
  exact (hperm.map f).sum_eq

/-- Helper: one lane of the vectorized N-body loop computes the scalar
path's pair term exactly (the mask matches the `sqr_len == 0` guard and the
factors agree by field algebra). -/
theorem simdNBodyTerm_eq (G : ℚ) (sq : ℚ → ℚ) (a b : PhysObject) :
    simdNBodyTerm G sq b a.pos = nbodyPairTerm G sq a b := by
  unfold simdNBodyTerm nbodyPairTerm
  by_cases h0 : (b.pos - a.pos).lengthSq = 0
  · rw [if_neg (by rw [h0]; exact lt_irrefl 0), if_pos h0]
  · have hpos : 0 < (b.pos - a.pos).lengthSq :=
      lt_of_le_of_ne (V2.lengthSq_nonneg _) (Ne.symm h0)
    rw [if_pos hpos, if_neg h0]
    apply V2.ext2 <;> simp only [V2.mulQ] <;> ring

/-- Helper: every live particle lies in a taken chunk. -/
theorem count_le_simdLanes (n : ℕ) : n ≤ simdLanes n := by
  rw [simdLanes]
  omega

/-- Helper: on a live particle the vectorized N-body pass accumulates
exactly the scalar path's per-particle N-body acceleration. -/
theorem simdNBody_arr (G : ℚ) (sq : ℚ → ℚ) (st : SimdState) (p : ℕ)
    (hp : p < st.count) :
    (simdNBody G sq st).arr p =
      (st.arr p).accelerate (nbodyAccel G sq (stList st) (st.arr p)) := by
  have h1 : 1 ≤ st.count := by omega
  have hlanes : p < simdLanes st.count := lt_of_lt_of_le hp (count_le_simdLanes _)
  have hw : (wrapBack st).arr p = st.arr p := by
    rw [wrapBack_arr st h1 p (by omega), Nat.mod_eq_of_lt hp]
  simp only [simdNBody, hlanes, if_pos, hw]
  rw [PhysObject.accelerate]
  congr 1
  congr 1
  have hterm : ∀ i < st.count,
      simdNBodyTerm G sq ((wrapBack st).arr (i + p % 4)) (st.arr p).pos
        = nbodyPairTerm G sq (st.arr p) (st.arr ((i + p % 4) % st.count)) := by
    intro i hi
    rw [wrapBack_arr st h1 (i + p % 4) (by have := Nat.mod_lt p (show 0 < 4 by omega); omega)]
    exact simdNBodyTerm_eq G sq (st.arr p) _
  calc sumV2 ((List.range st.count).map (fun i =>
        simdNBodyTerm G sq ((wrapBack st).arr (i + p % 4)) (st.arr p).pos))
      = sumV2 ((List.range st.count).map (fun i =>
          nbodyPairTerm G sq (st.arr p) (st.arr ((i + p % 4) % st.count)))) := by
        congr 1
        apply List.map_congr_left
        intro i hi
        exact hterm i (List.mem_range.mp hi)
    _ = sumV2 ((List.range st.count).map (fun i =>
          nbodyPairTerm G sq (st.arr p) (st.arr i))) := by
        exact sumV2_range_rotate st.count h1 (p % 4)
          (fun j => nbodyPairTerm G sq (st.arr p) (st.arr j))
    _ = nbodyAccel G sq (stList st) (st.arr p) := by
        rw [nbodyAccel, stList, List.map_map]
        rfl

theorem simdNBody_count (G : ℚ) (sq : ℚ → ℚ) (st : SimdState) :
    (simdNBody G sq st).count = st.count := rfl

theorem simdFieldGravity_count (s : PhysSettings) (dt : ℚ) (st : SimdState) :
    (simdFieldGravity s dt st).count = st.count := by
  by_cases hm : s.gravity.isNone <;> simp [simdFieldGravity, hm]

/-- Helper: on a live particle the vectorized integration pass equals the
scalar `update_position` (positions are finite in the exact model). -/
theorem simdIntegrate_arr (dt : ℚ) (st : SimdState) (p : ℕ)
    (hp : p < st.count) :
    (simdIntegrate dt st).arr p = (st.arr p).update_position dt := by
  have hl : p < simdLanes st.count := lt_of_lt_of_le hp (count_le_simdLanes _)
  simp only [simdIntegrate, hl, if_pos]
  have hacc : ((st.arr p).acceleration.mulQ dt).mulQ dt
      = (st.arr p).acceleration.mulQ (dt * dt) := by
    apply V2.ext2 <;> simp only [V2.mulQ] <;> ring
  rw [PhysObject.update_position, hacc]

/-- Helper: elementwise description of the vectorized field-gravity pass. -/
theorem simdFieldGravity_arr (s : PhysSettings) (dt : ℚ) (st : SimdState)
    (p : ℕ) (hp : p < st.count) :
    (simdFieldGravity s dt st).arr p =
      if s.gravity.isNone then st.arr p
      else
        (if s.gravity_set_velocity then
          (st.arr p).set_velocity ((s.gravity.acceleration (st.arr p).pos).mulQ dt)
        else (st.arr p).accelerate (s.gravity.acceleration (st.arr p).pos)) := by
  have hl : p < simdLanes st.count := lt_of_lt_of_le hp (count_le_simdLanes _)
  by_cases hm : s.gravity.isNone <;> simp [simdFieldGravity, hm, hl]

/-- Helper: elementwise description of the scalar gravity phase. -/
theorem gravityPhase_getElem (sq : ℚ → ℚ) (s : PhysSettings) (dt : ℚ)
    (objs : List PhysObject) (q : ℕ) (o : PhysObject) (h : objs[q]? = some o) :
    (gravityPhase sq s dt objs)[q]? =
      some (
        let o1 := if |s.gravitational_constant| > f32Eps then
            (if s.gravity_set_velocity then
              o.set_velocity
                ((nbodyAccel s.gravitational_constant sq objs o).mulQ dt)
            else o.accelerate (nbodyAccel s.gravitational_constant sq objs o))
          else o
        if s.gravity.isNone then o1
        else
          (if s.gravity_set_velocity then
            o1.set_velocity ((s.gravity.acceleration o1.pos).mulQ dt)
          else o1.accelerate (s.gravity.acceleration o1.pos))) := by
  by_cases hG : |s.gravitational_constant| > f32Eps <;>
    by_cases hm : s.gravity.isNone <;>
    simp [gravityPhase, hG, hm, List.getElem?_map, h]

/-- C1 (amended): each substep of the vectorized path executes only the
gravity terms and integration — boundary confinement, constraint
satisfaction and collision resolution are not executed at all (constraints
are only validated for discard before the loop).  Consequently the
vectorized substep agrees with the scalar substep exactly when those stages
are inert — `bounds = None`, no constraints, collisions disabled — and
`gravity_set_velocity` is off (the vectorized N-body pass always
accumulates acceleration, ignoring that flag); the agreement covers an
active N-body term, whose rotated vectorized summation equals the scalar
sum over the exact rationals (floating-point reassociation tolerance). -/
theorem c1_simd_gravity_integration_equiv (sq : ℚ → ℚ) (s : PhysSettings) (dt : ℚ) (st : SimdState)
    (hb : s.bounds = Bounds.none) (hc : s.collisions = false)
    (hsv : s.gravity_set_velocity = false) (p : ℕ) (hp : p < st.count) :
    (substep sq s [] [] dt (stList st))[p]?
      = some ((simdSubstep sq s dt st).arr p) := by
  have h1 : 1 ≤ st.count := by omega
  have hsub : substep sq s [] [] dt (stList st)
      = updatePhase dt (gravityPhase sq s dt (stList st)) := by
    rw [substep, boundsPhase, collisionPhase, constraintsPhase]
    simp [hb, hc, Bounds.isNone]
  rw [hsub, updatePhase, List.getElem?_map]
  have hobj : (stList st)[p]? = some (st.arr p) := by
    simp [stList, List.getElem?_map, List.getElem?_range, hp]
  rw [gravityPhase_getElem sq s dt _ p (st.arr p) hobj]
  simp only [Option.map_some']
  by_cases hG : |s.gravitational_constant| > f32Eps <;>
    by_cases hm : s.gravity.isNone
  · -- N-body active, field inactive
    have hX : (if |s.gravitational_constant| > f32Eps then
          simdNBody s.gravitational_constant sq st else st)
        = simdNBody s.gravitational_constant sq st := if_pos hG
    rw [simdSubstep, hX]
    have hpf : p < (simdNBody s.gravitational_constant sq st).count := hp
    rw [show simdFieldGravity s dt (simdNBody s.gravitational_constant sq st)
          = simdNBody s.gravitational_constant sq st from by
        rw [simdFieldGravity]; simp [hm]]
    rw [simdIntegrate_arr dt _ p hpf]
    rw [simdNBody_arr s.gravitational_constant sq st p hp]
    simp [hG, hm, hsv]
  · -- N-body active, field active
    have hX : (if |s.gravitational_constant| > f32Eps then
          simdNBody s.gravitational_constant sq st else st)
        = simdNBody s.gravitational_constant sq st := if_pos hG
    rw [simdSubstep, hX]
    have hpf : p < (simdNBody s.gravitational_constant sq st).count := hp
    have hpf2 : p < (simdFieldGravity s dt
        (simdNBody s.gravitational_constant sq st)).count := by
      rw [simdFieldGravity_count]; exact hp
    rw [simdIntegrate_arr dt _ p hpf2]
    rw [simdFieldGravity_arr s dt _ p hpf]
    rw [simdNBody_arr s.gravitational_constant sq st p hp]
    simp [hG, hm, hsv]
  · -- N-body inactive, field inactive
    have hX : (if |s.gravitational_constant| > f32Eps then
          simdNBody s.gravitational_constant sq st else st) = st := if_neg hG
    rw [simdSubstep, hX]
    rw [show simdFieldGravity s dt st = st from by
        rw [simdFieldGravity]; simp [hm]]
    rw [simdIntegrate_arr dt st p hp]
    simp [hG, hm, hsv]
  · -- N-body inactive, field active
    have hX : (if |s.gravitational_constant| > f32Eps then
          simdNBody s.gravitational_constant sq st else st) = st := if_neg hG
    rw [simdSubstep, hX]
    have hpf2 : p < (simdFieldGravity s dt st).count := by
      rw [simdFieldGravity_count]; exact hp
    rw [simdIntegrate_arr dt _ p hpf2]
    rw [simdFieldGravity_arr s dt st p hp]
    simp [hG, hm, hsv]

/-- Counterexample for C1: with `Rect` bounds, no gravity, no constraints
and collisions off, a particle outside the bounds is clamped and moved by
the scalar substep but left untouched by the vectorized substep — the
vectorized path runs no boundary confinement (nor constraints nor
collisions) at all, so it is not a drop-in equivalent of the scalar
pipeline. -/
theorem c1_simd_not_drop_in_counterexample :
    (substep id
        { gravity := Gravity.none, gravity_set_velocity := false,
          bounds := Bounds.rect ⟨-100, -100⟩ ⟨100, 100⟩,
          gravitational_constant := 0, sub_steps := 1, collisions := false,
          use_simd := true } [] [] 1
        (stList { count := 1, arr := fun _ =>
          { pos := ⟨300, 0⟩, pos_old := ⟨300, 0⟩, acceleration := V2.zero,
            radius := 10, mass := 1 } }))[0]?
      = some { pos := ⟨-120, 0⟩, pos_old := ⟨90, 0⟩, acceleration := V2.zero,
               radius := 10, mass := 1 }
    ∧ ((simdSubstep id
        { gravity := Gravity.none, gravity_set_velocity := false,
          bounds := Bounds.rect ⟨-100, -100⟩ ⟨100, 100⟩,
          gravitational_constant := 0, sub_steps := 1, collisions := false,
          use_simd := true } 1
        { count := 1, arr := fun _ =>
          { pos := ⟨300, 0⟩, pos_old := ⟨300, 0⟩, acceleration := V2.zero,
            radius := 10, mass := 1 } }).arr 0)
      = { pos := ⟨300, 0⟩, pos_old := ⟨300, 0⟩, acceleration := V2.zero,
          radius := 10, mass := 1 }
    ∧ some ({ pos := ⟨300, 0⟩, pos_old := ⟨300, 0⟩, acceleration := V2.zero,
              radius := 10, mass := 1 } : PhysObject)
      ≠ some ({ pos := ⟨-120, 0⟩, pos_old := ⟨90, 0⟩, acceleration := V2.zero,
                radius := 10, mass := 1 } : PhysObject) := by
  refine ⟨?_, ?_, ?_⟩
  · norm_num [substep, stList, gravityPhase, boundsPhase, constraintsPhase,
      collisionPhase, updatePhase, Gravity.isNone, Bounds.isNone, f32Eps,
      Bounds.update_position, V2.clamp, V2.splat, V2.add_def, V2.sub_def,
      V2.mulQ, V2.zero, List.range_succ, List.range_zero,
      PhysObject.update_position, min_def, max_def]
  · norm_num [simdSubstep, simdFieldGravity, simdIntegrate, simdLanes,
      Gravity.isNone, f32Eps, V2.add_def, V2.sub_def, V2.mulQ, V2.zero]
  · norm_num [PhysObject.mk.injEq, V2.mk.injEq]

/-- Witness for C1: a two-particle system with an active N-body term
(`G = 1`), no field gravity, no bounds, no constraints and collisions off;
the vectorized and scalar substeps agree on particle 0. -/
theorem c1_simd_gravity_integration_equiv_witness :
    (({ gravity := Gravity.none, gravity_set_velocity := false,
        bounds := Bounds.none, gravitational_constant := 1, sub_steps := 1,
        collisions := false, use_simd := true } : PhysSettings).bounds
      = Bounds.none)
    ∧ (({ gravity := Gravity.none, gravity_set_velocity := false,
          bounds := Bounds.none, gravitational_constant := 1, sub_steps := 1,
          collisions := false, use_simd := true } : PhysSettings).collisions
      = false)
    ∧ (({ gravity := Gravity.none, gravity_set_velocity := false,
          bounds := Bounds.none, gravitational_constant := 1, sub_steps := 1,
          collisions := false, use_simd := true } : PhysSettings).gravity_set_velocity
      = false)
    ∧ (0 : ℕ) <
        ({ count := 2, arr := fun i =>
            if i = 0 then
              { pos := ⟨0, 0⟩, pos_old := ⟨0, 0⟩, acceleration := V2.zero,
                radius := 1, mass := 2 }
            else
              { pos := ⟨3, 0⟩, pos_old := ⟨3, 0⟩, acceleration := V2.zero,
                radius := 1, mass := 5 } } : SimdState).count
    ∧ (substep id
        { gravity := Gravity.none, gravity_set_velocity := false,
          bounds := Bounds.none, gravitational_constant := 1, sub_steps := 1,
          collisions := false, use_simd := true } [] [] 1
        (stList { count := 2, arr := fun i =>
          if i = 0 then
            { pos := ⟨0, 0⟩, pos_old := ⟨0, 0⟩, acceleration := V2.zero,
              radius := 1, mass := 2 }
          else
            { pos := ⟨3, 0⟩, pos_old := ⟨3, 0⟩, acceleration := V2.zero,
              radius := 1, mass := 5 } }))[0]?
      = some ((simdSubstep id
          { gravity := Gravity.none, gravity_set_velocity := false,
            bounds := Bounds.none, gravitational_constant := 1,
            sub_steps := 1, collisions := false, use_simd := true } 1
          { count := 2, arr := fun i =>
            if i = 0 then
              { pos := ⟨0, 0⟩, pos_old := ⟨0, 0⟩, acceleration := V2.zero,
                radius := 1, mass := 2 }
            else
              { pos := ⟨3, 0⟩, pos_old := ⟨3, 0⟩, acceleration := V2.zero,
                radius := 1, mass := 5 } }).arr 0) := by
  refine ⟨rfl, rfl, rfl, by norm_num, ?_⟩
  exact c1_simd_gravity_integration_equiv id
    { gravity := Gravity.none, gravity_set_velocity := false,
      bounds := Bounds.none, gravitational_constant := 1, sub_steps := 1,
      collisions := false, use_simd := true } 1
    { count := 2, arr := fun i =>
      if i = 0 then
        { pos := ⟨0, 0⟩, pos_old := ⟨0, 0⟩, acceleration := V2.zero,
          radius := 1, mass := 2 }
      else
        { pos := ⟨3, 0⟩, pos_old := ⟨3, 0⟩, acceleration := V2.zero,
          radius := 1, mass := 5 } }
    rfl rfl rfl 0 (by norm_num)
